import Mathlib

/-!
# Verification of the `gated` feature-flag evaluation engine

A shallow embedding of the hook-lifecycle orchestrator (`src/lib/index.ts`),
the hook recipes (`src/hooks/recipes.ts`: `getKey`, `cacheHook`, `dedupeHook`)
and a round model for the request coalescer, together with theorems about the
spec's claims.

Modelling conventions:
* JS promises that settle are modelled by their settled outcome; asynchronous
  callbacks are given as pure outcome functions over an explicit hook state `σ`.
  A resolve callback may additionally never settle (`ResolveOut.blocks`), which
  models awaiting a promise that is never fulfilled.
* Thrown JS errors are modelled by their message string (`ErrVal`).
* `Promise.allSettled` suppresses every callback failure, so the stage runners
  for before/after/error/finally record the invocation and discard the
  callback's `CbResult`.
* Each evaluation produces an event log recording which hook callbacks were
  invoked (by registration index) and with which payloads, plus every call to
  the provider `decide` callback.
-/

namespace Gated

/-- A distinct id is a string or a number (`distinctId: string | number`). -/
inductive DistinctId where
  | str (s : String)
  | num (n : Int)
deriving DecidableEq, Repr

/-- JS template-literal stringification of a distinct id, as used by
`` `${context.flagKey}:${context.identity.distinctId}` ``. -/
def DistinctId.canon : DistinctId → String
  | .str s => s
  | .num n => toString n

/-- The identity record; extra attributes are irrelevant to the engine and
are dropped from the model. -/
structure Identity where
  distinctId : DistinctId
deriving DecidableEq, Repr

/-- A decision is a tagged union: `{value: boolean}` or `{variant: string}`. -/
inductive Decision where
  | value (b : Bool)
  | variant (v : String)
deriving DecidableEq, Repr

/-- The value `extractDecisionValue` produces: `boolean | string`. -/
inductive GateValue where
  | bool (b : Bool)
  | str (s : String)
deriving DecidableEq, Repr

/-- `HookContext`: `{flagKey: string, identity: TIdentity | null}`. -/
structure HookContext where
  flagKey : String
  identity : Option Identity
deriving DecidableEq, Repr

/-- A thrown JS error, modelled by its message. -/
abbrev ErrVal := String

/-- The `expectedType` parameter of `extractDecisionValue`. -/
inductive ExpectedType where
  | boolean
  | variant
deriving DecidableEq, Repr

/-- Observed behaviour of the `identify` callback `fn` when invoked:
it returns an identity, returns `null`/`undefined`, or throws. -/
inductive IdentifyOutcome where
  | ok (i : Identity)
  | noIdentity
  | threw (e : ErrVal)
deriving DecidableEq, Repr

/-- `identify(fn, overrideIdentity)` from `src/lib/index.ts`: returns the
override when present, otherwise invokes `fn`; throws
`Error("Identity not found")` when `fn` yields no identity; a throw of `fn`
itself propagates unchanged. -/
def identify (fn : IdentifyOutcome) (overrideIdentity : Option Identity) :
    Except ErrVal Identity :=
  match overrideIdentity with
  | some o => .ok o
  | none =>
    match fn with
    | .ok i => .ok i
    | .noIdentity => .error "Identity not found"
    | .threw e => .error e

/-- JS stringification of a boolean. -/
def boolToString (b : Bool) : String :=
  if b then "true" else "false"

/-- `extractDecisionValue(decision, expectedType)` from `src/lib/index.ts`. -/
def extractDecisionValue (decision : Decision) (expectedType : Option ExpectedType) :
    Except ErrVal GateValue :=
  match decision, expectedType with
  | .variant v, some .boolean =>
    .error ("Type mismatch: expected boolean decision but received variant \"" ++ v ++ "\"")
  | .value b, some .variant =>
    .error ("Type mismatch: expected variant decision but received boolean \"" ++
      boolToString b ++ "\"")
  | .variant v, _ => .ok (.str v)
  | .value b, _ => .ok (.bool b)

/-- `validateVariant(value, variants)` from `src/lib/index.ts`. -/
def validateVariant (value : String) (variants : Option (List String)) :
    Except ErrVal Unit :=
  match variants with
  | none => .ok ()
  | some vs =>
    if vs.contains value then .ok ()
    else .error ("Invalid variant: " ++ value)

/-- Observed behaviour of the provider `decide` callback for one invocation. -/
inductive DecideOutcome where
  | ok (d : Decision)
  | threw (e : ErrVal)
deriving DecidableEq, Repr

/-- `evaluateDecision(decide, gateKey, gateIdentity, variants)` from
`src/lib/index.ts`: call the provider, then validate a variant decision
against the declared variants. -/
def evaluateDecision (decide : String → Identity → DecideOutcome) (gateKey : String)
    (gateIdentity : Identity) (variants : Option (List String)) :
    Except ErrVal Decision :=
  match decide gateKey gateIdentity with
  | .threw e => .error e
  | .ok decision =>
    match decision with
    | .variant v =>
      match validateVariant v variants with
      | .error e => .error e
      | .ok _ => .ok decision
    | .value _ => .ok decision

/-- Result of a void hook callback: it settles or it rejects/throws. -/
inductive CbResult where
  | ok
  | threw (e : ErrVal)
deriving DecidableEq, Repr

/-- Result of a `resolve` hook callback: a decision, `undefined`, a throw, or
a promise that never settles. -/
inductive ResolveOut where
  | found (d : Decision)
  | absent
  | threw (e : ErrVal)
  | blocks
deriving DecidableEq, Repr

/-- A hook: up to five optional callbacks, each a pure outcome function over
the shared hook state `σ`. -/
structure Hook (σ : Type) where
  before : Option (HookContext → σ → CbResult × σ) := none
  resolve : Option (HookContext → σ → ResolveOut × σ) := none
  after : Option (HookContext → Decision → σ → CbResult × σ) := none
  error : Option (HookContext → ErrVal → σ → CbResult × σ) := none
  finallyCb : Option (HookContext → σ → CbResult × σ) := none

/-- One observable callback invocation during an evaluation. `i` is the
hook's registration index in the hook list. -/
inductive Event where
  | beforeCalled (i : Nat) (ctx : HookContext)
  | resolveCalled (i : Nat) (ctx : HookContext) (out : ResolveOut)
  | decideCalled (key : String) (ident : Identity)
  | afterCalled (i : Nat) (ctx : HookContext) (d : Decision)
  | errorCalled (i : Nat) (ctx : HookContext) (e : ErrVal)
  | finallyCalled (i : Nat) (ctx : HookContext)
deriving DecidableEq, Repr

/-- State and event log produced by one fire-all stage. -/
structure StageOut (σ : Type) where
  state : σ
  events : List Event
deriving Repr

/-- Outcome of the resolve stage. `result = none` means a resolve callback
never settled, so the stage (and the whole evaluation) never completes. -/
structure ResolveStageOut (σ : Type) where
  result : Option (Option Decision)
  state : σ
  events : List Event
deriving Repr

variable {σ : Type}

/-- `runBeforeHooks`, indexed: invoke every present `before` callback in
list order; failures are suppressed (`Promise.allSettled`). -/
def runBeforeAux (ctx : HookContext) : Nat → List (Hook σ) → σ → StageOut σ
  | _, [], s => ⟨s, []⟩
  | i, h :: hs, s =>
    match h.before with
    | none => runBeforeAux ctx (i + 1) hs s
    | some cb =>
      let r := cb ctx s
      let rest := runBeforeAux ctx (i + 1) hs r.2
      ⟨rest.state, Event.beforeCalled i ctx :: rest.events⟩

/-- `runBeforeHooks(hooks, hookContext)` from `src/lib/index.ts`. -/
def runBeforeHooks (hooks : List (Hook σ)) (hookContext : HookContext) (s : σ) :
    StageOut σ :=
  runBeforeAux hookContext 0 hooks s

/-- `runResolveHooks`, indexed: invoke `resolve` callbacks sequentially in
list order; the first non-`undefined` decision is returned and no later hook
runs; a throwing callback is skipped and the next hook is tried. -/
def runResolveAux (ctx : HookContext) : Nat → List (Hook σ) → σ → ResolveStageOut σ
  | _, [], s => ⟨some none, s, []⟩
  | i, h :: hs, s =>
    match h.resolve with
    | none => runResolveAux ctx (i + 1) hs s
    | some cb =>
      match cb ctx s with
      | (.found d, s') => ⟨some (some d), s', [Event.resolveCalled i ctx (.found d)]⟩
      | (.absent, s') =>
        let rest := runResolveAux ctx (i + 1) hs s'
        ⟨rest.result, rest.state, Event.resolveCalled i ctx .absent :: rest.events⟩
      | (.threw e, s') =>
        let rest := runResolveAux ctx (i + 1) hs s'
        ⟨rest.result, rest.state, Event.resolveCalled i ctx (.threw e) :: rest.events⟩
      | (.blocks, s') => ⟨none, s', [Event.resolveCalled i ctx .blocks]⟩

/-- `runResolveHooks(hooks, hookContext)` from `src/lib/index.ts`. -/
def runResolveHooks (hooks : List (Hook σ)) (hookContext : HookContext) (s : σ) :
    ResolveStageOut σ :=
  runResolveAux hookContext 0 hooks s

/-- `runAfterHooks`, indexed. -/
def runAfterAux (ctx : HookContext) (decision : Decision) :
    Nat → List (Hook σ) → σ → StageOut σ
  | _, [], s => ⟨s, []⟩
  | i, h :: hs, s =>
    match h.after with
    | none => runAfterAux ctx decision (i + 1) hs s
    | some cb =>
      let r := cb ctx decision s
      let rest := runAfterAux ctx decision (i + 1) hs r.2
      ⟨rest.state, Event.afterCalled i ctx decision :: rest.events⟩

/-- `runAfterHooks(hooks, hookContext, decision)` from `src/lib/index.ts`. -/
def runAfterHooks (hooks : List (Hook σ)) (hookContext : HookContext)
    (decision : Decision) (s : σ) : StageOut σ :=
  runAfterAux hookContext decision 0 hooks s

/-- `runErrorHooks`, indexed. -/
def runErrorAux (ctx : HookContext) (e : ErrVal) :
    Nat → List (Hook σ) → σ → StageOut σ
  | _, [], s => ⟨s, []⟩
  | i, h :: hs, s =>
    match h.error with
    | none => runErrorAux ctx e (i + 1) hs s
    | some cb =>
      let r := cb ctx e s
      let rest := runErrorAux ctx e (i + 1) hs r.2
      ⟨rest.state, Event.errorCalled i ctx e :: rest.events⟩

/-- `runErrorHooks(hooks, hookContext, error)` from `src/lib/index.ts`. -/
def runErrorHooks (hooks : List (Hook σ)) (hookContext : HookContext) (e : ErrVal)
    (s : σ) : StageOut σ :=
  runErrorAux hookContext e 0 hooks s

/-- `runFinallyHooks`, indexed. -/
def runFinallyAux (ctx : HookContext) : Nat → List (Hook σ) → σ → StageOut σ
  | _, [], s => ⟨s, []⟩
  | i, h :: hs, s =>
    match h.finallyCb with
    | none => runFinallyAux ctx (i + 1) hs s
    | some cb =>
      let r := cb ctx s
      let rest := runFinallyAux ctx (i + 1) hs r.2
      ⟨rest.state, Event.finallyCalled i ctx :: rest.events⟩

/-- `runFinallyHooks(hooks, hookContext)` from `src/lib/index.ts`. -/
def runFinallyHooks (hooks : List (Hook σ)) (hookContext : HookContext) (s : σ) :
    StageOut σ :=
  runFinallyAux hookContext 0 hooks s

/-- The `config` argument of `executeGate`: identify/decide callbacks and an
optional hook list. -/
structure GateConfig (σ : Type) where
  identifyFn : IdentifyOutcome
  decide : String → Identity → DecideOutcome
  hooks : Option (List (Hook σ)) := none

/-- The `options` argument of `executeGate`. -/
structure GateOptions where
  key : String
  defaultValue : GateValue
  variants : Option (List String) := none
deriving Repr

/-- Final outcome of one evaluation. `result = none` means the evaluation
never completes (a resolve callback never settled). -/
structure GateOut (σ : Type) where
  result : Option GateValue
  state : σ
  events : List Event
deriving Repr

/-- `executeGate(config, options, overrideIdentity)` from `src/lib/index.ts`.

The JS `result ?? options.defaultValue` falls back only on
`null`/`undefined`, which is exactly `Option.getD`: a successful `false`
decision is returned, not the default. The `resolve` short-circuit path
(`return extractDecisionValue(resolveResult, expectedType)`) returns its value
directly and runs only the `finally` stage; every failure inside the `try`
lands in the `catch`, which runs the `error` stage, then `finally`, then
falls through to the default. -/
def executeGate (config : GateConfig σ) (options : GateOptions)
    (overrideIdentity : Option Identity) (s0 : σ) : GateOut σ :=
  let hooks := config.hooks.getD []
  let expectedType : ExpectedType :=
    if options.variants.isSome then .variant else .boolean
  match identify config.identifyFn overrideIdentity with
  | .error e =>
    let ctx0 : HookContext := ⟨options.key, none⟩
    let rE := runErrorHooks hooks ctx0 e s0
    let rF := runFinallyHooks hooks ctx0 rE.state
    ⟨some (Option.getD none options.defaultValue), rF.state, rE.events ++ rF.events⟩
  | .ok identity =>
    let ctx : HookContext := ⟨options.key, some identity⟩
    let rB := runBeforeHooks hooks ctx s0
    let rR := runResolveHooks hooks ctx rB.state
    match rR.result with
    | none => ⟨none, rR.state, rB.events ++ rR.events⟩
    | some (some resolveResult) =>
      match extractDecisionValue resolveResult (some expectedType) with
      | .ok v =>
        let rF := runFinallyHooks hooks ctx rR.state
        ⟨some v, rF.state, rB.events ++ rR.events ++ rF.events⟩
      | .error e =>
        let rE := runErrorHooks hooks ctx e rR.state
        let rF := runFinallyHooks hooks ctx rE.state
        ⟨some (Option.getD none options.defaultValue), rF.state,
          rB.events ++ rR.events ++ rE.events ++ rF.events⟩
    | some none =>
      match evaluateDecision config.decide options.key identity options.variants with
      | .error e =>
        let rE := runErrorHooks hooks ctx e rR.state
        let rF := runFinallyHooks hooks ctx rE.state
        ⟨some (Option.getD none options.defaultValue), rF.state,
          rB.events ++ rR.events ++ [Event.decideCalled options.key identity] ++
            rE.events ++ rF.events⟩
      | .ok decision =>
        let rA := runAfterHooks hooks ctx decision rR.state
        match extractDecisionValue decision (some expectedType) with
        | .ok v =>
          let rF := runFinallyHooks hooks ctx rA.state
          ⟨some (Option.getD (some v) options.defaultValue), rF.state,
            rB.events ++ rR.events ++ [Event.decideCalled options.key identity] ++
              rA.events ++ rF.events⟩
        | .error e =>
          let rE := runErrorHooks hooks ctx e rA.state
          let rF := runFinallyHooks hooks ctx rE.state
          ⟨some (Option.getD none options.defaultValue), rF.state,
            rB.events ++ rR.events ++ [Event.decideCalled options.key identity] ++
              rA.events ++ rE.events ++ rF.events⟩

/-- First-match association-list lookup (models `Map.get`). -/
def assocLookup {α β : Type} [DecidableEq α] : List (α × β) → α → Option β
  | [], _ => none
  | (k', v) :: rest, k => if k' = k then some v else assocLookup rest k

/-- Remove the entry for a key (models `Map.delete`; keys are unique in the
map, so removing the first occurrence is exact). -/
def eraseKey {α β : Type} [DecidableEq α] : List (α × β) → α → List (α × β)
  | [], _ => []
  | (k', v) :: rest, k => if k' = k then rest else (k', v) :: eraseKey rest k

/-- `getKey(context)` from `src/hooks/recipes.ts`: the composite key is
`` `${flagKey}:${distinctId}` `` when an identity is present, otherwise the
flag key alone. -/
def getKey (context : HookContext) : String :=
  match context.identity with
  | some identity => context.flagKey ++ ":" ++ identity.distinctId.canon
  | none => context.flagKey

/-- Observed behaviour of `Cache.get` for a key: a decision, a miss, or a
thrown store failure. -/
inductive GetOutcome where
  | found (d : Decision)
  | missing
  | threw (e : ErrVal)
deriving DecidableEq, Repr

/-- The external cache store consumed by `cacheHook` (an external
collaborator: `get` may fail, `set` may fail). -/
structure CacheBehavior where
  get : String → GetOutcome
  setOutcome : String → Decision → CbResult

/-- Hook-side cache state: the log of `Cache.set` calls performed. -/
structure CacheState where
  setLog : List (String × Decision) := []
deriving DecidableEq, Repr

/-- `cacheHook` from `src/hooks/recipes.ts`: `resolve` returns
`cache.get(getKey(context))` when an identity is present (a miss is
`undefined`); `after` stores the decision; both stages skip entirely when the
identity is absent. -/
def cacheHook (cache : CacheBehavior) : Hook CacheState where
  resolve := some fun context s =>
    match context.identity with
    | none => (.absent, s)
    | some _ =>
      match cache.get (getKey context) with
      | .found d => (.found d, s)
      | .missing => (.absent, s)
      | .threw e => (.threw e, s)
  after := some fun context decision s =>
    match context.identity with
    | none => (.ok, s)
    | some _ =>
      (cache.setOutcome (getKey context) decision,
        ⟨(getKey context, decision) :: s.setLog⟩)

/-- The coalescer's shared state: the `pending` key-space map (key to promise
id, promises numbered in creation order by `nextId`) plus the settlement
ledger of every promise the hook has created. -/
structure DedupeState where
  pending : List (String × Nat) := []
  nextId : Nat := 0
  resolvedLog : List (Nat × Decision) := []
  rejectedLog : List (Nat × ErrVal) := []
deriving DecidableEq, Repr

/-- Awaiting the promise numbered `pid` in state `s`: it yields the decision
it was resolved with, throws the error it was rejected with, or never
settles. -/
def awaitPromise (s : DedupeState) (pid : Nat) : ResolveOut :=
  match assocLookup s.resolvedLog pid with
  | some d => .found d
  | none =>
    match assocLookup s.rejectedLog pid with
    | some e => .threw e
    | none => .blocks

/-- The `resolve` callback of `dedupeHook`: a pending entry for the key makes
the caller await that entry's promise; otherwise a fresh pending promise is
created for the key and `undefined` is returned so the pipeline continues. -/
def dedupeResolve (context : HookContext) (s : DedupeState) :
    ResolveOut × DedupeState :=
  let key := getKey context
  match assocLookup s.pending key with
  | some pid => (awaitPromise s pid, s)
  | none =>
    (.absent,
      { s with pending := (key, s.nextId) :: s.pending, nextId := s.nextId + 1 })

/-- The `after` callback of `dedupeHook`: resolve the pending promise for the
key with the decision and delete the entry; no-op when no entry exists. -/
def dedupeAfter (context : HookContext) (decision : Decision) (s : DedupeState) :
    CbResult × DedupeState :=
  let key := getKey context
  match assocLookup s.pending key with
  | some pid =>
    (.ok, { s with pending := eraseKey s.pending key,
                   resolvedLog := (pid, decision) :: s.resolvedLog })
  | none => (.ok, s)

/-- The `error` callback of `dedupeHook`: reject the pending promise for the
key with the error and delete the entry; no-op when no entry exists. -/
def dedupeError (context : HookContext) (e : ErrVal) (s : DedupeState) :
    CbResult × DedupeState :=
  let key := getKey context
  match assocLookup s.pending key with
  | some pid =>
    (.ok, { s with pending := eraseKey s.pending key,
                   rejectedLog := (pid, e) :: s.rejectedLog })
  | none => (.ok, s)

/-- `dedupeHook` from `src/hooks/recipes.ts`. -/
def dedupeHook : Hook DedupeState where
  resolve := some dedupeResolve
  after := some dedupeAfter
  error := some dedupeError

/-!
## A coalesced round

The model of the schedule class in the coalescing claim: one creator starts
an evaluation (its `resolve` installs the pending entry and the provider call
goes in flight), N joiners invoke their `resolve` while the call is in
flight (each observes the pending entry and awaits its promise; the joined
branch of `dedupeResolve` does not modify the dedupe state — see
`dedupeResolve_join_frame` — so the creator's evaluation interleaved with the
joiners' arrivals reaches the same states as running it alone, and the
joiners' mutual order is irrelevant), the creator's evaluation completes
(its `after`/`error` stage settles the promise), and the joiners resume with
the settled promise.
-/

/-- Inputs of one coalesced round: a single gate (flag key, default,
variants), the creator's identity, the joiners' identities, and the
provider's behaviour for the single in-flight call. -/
structure RoundInput where
  flagKey : String
  defaultValue : GateValue
  variants : Option (List String) := none
  creatorIdentity : Identity
  joinerIdentities : List Identity
  decideOutcome : DecideOutcome

/-- The gate configuration shared by every caller of the round, with the
dedupe hook registered. -/
def roundConfig (inp : RoundInput) : GateConfig DedupeState where
  identifyFn := .ok inp.creatorIdentity
  decide := fun _ _ => inp.decideOutcome
  hooks := some [dedupeHook]

/-- The gate options shared by every caller of the round. -/
def roundOptions (inp : RoundInput) : GateOptions where
  key := inp.flagKey
  defaultValue := inp.defaultValue
  variants := inp.variants

/-- The creator's hook context. -/
def creatorCtx (inp : RoundInput) : HookContext :=
  ⟨inp.flagKey, some inp.creatorIdentity⟩

/-- A joiner's hook context. -/
def joinerCtx (inp : RoundInput) (j : Identity) : HookContext :=
  ⟨inp.flagKey, some j⟩

/-- The dedupe state right after the creator's resolve stage, while the
provider call is in flight. -/
def roundMidState (inp : RoundInput) : DedupeState :=
  (runResolveHooks [dedupeHook] (creatorCtx inp)
    (runBeforeHooks [dedupeHook] (creatorCtx inp) {}).state).state

/-- The creator's complete evaluation. -/
def roundCreatorRun (inp : RoundInput) : GateOut DedupeState :=
  executeGate (roundConfig inp) (roundOptions inp) none {}

/-- The promise id a joiner observes in the pending map while the provider
call is in flight. -/
def joinerObservedPid (inp : RoundInput) (j : Identity) : Option Nat :=
  assocLookup (roundMidState inp).pending (getKey (joinerCtx inp j))

/-- What a joiner's dedupe `resolve` callback delivers once the creator's
evaluation has completed: the awaited promise's settlement, or `absent` when
the joiner never actually joined (different key). -/
def joinerOutcome (inp : RoundInput) (j : Identity) : ResolveOut :=
  match joinerObservedPid inp j with
  | some pid => awaitPromise (roundCreatorRun inp).state pid
  | none => .absent

/-- All joiners' delivered outcomes. -/
def roundJoinerOutcomes (inp : RoundInput) : List ResolveOut :=
  inp.joinerIdentities.map (joinerOutcome inp)

/-- Recognizers for event kinds. -/
def isDecideEvent : Event → Bool
  | .decideCalled _ _ => true
  | _ => false

def isAfterEvent : Event → Bool
  | .afterCalled _ _ _ => true
  | _ => false

def isErrorEvent : Event → Bool
  | .errorCalled _ _ _ => true
  | _ => false

/-- Number of provider `decide` calls made in the whole round: every
`decideCalled` event of the creator's run, plus one for every joiner whose
resolve stage did not short-circuit (an `absent` or thrown outcome lets the
joiner's own pipeline fall through to its own `decide` call; a blocked
joiner never proceeds). -/
def roundDecideCalls (inp : RoundInput) : Nat :=
  (roundCreatorRun inp).events.countP isDecideEvent +
    (roundJoinerOutcomes inp).countP (fun o =>
      match o with
      | .absent => true
      | .threw _ => true
      | _ => false)

/-- Lifecycle rank of an event: before/resolve/decide precede after, which
precedes error, which precedes finally. -/
def stageRank : Event → Nat
  | .beforeCalled _ _ => 0
  | .resolveCalled _ _ _ => 1
  | .decideCalled _ _ => 2
  | .afterCalled _ _ _ => 3
  | .errorCalled _ _ _ => 4
  | .finallyCalled _ _ => 5

/-- Event `a` belongs to a stage no later than event `b`. -/
def rankLe (a b : Event) : Prop := stageRank a ≤ stageRank b

/-!
## Concrete scenarios used by witnesses and counterexamples
-/

/-- A bare gate whose provider answers `{value: false}` on a boolean flag
whose default is `true`. -/
def c1Config : GateConfig Unit where
  identifyFn := .ok ⟨.str "user123"⟩
  decide := fun _ _ => .ok (.value false)

def c1Options : GateOptions where
  key := "test-flag"
  defaultValue := .bool true

/-- A hook with both an `after` and an `error` callback. -/
def bothHook : Hook Unit where
  after := some fun _ _ s => (.ok, s)
  error := some fun _ _ s => (.ok, s)

/-- A boolean gate whose provider answers a variant decision, so the type
assertion in `extractDecisionValue` fails after the decision was produced. -/
def c2Config : GateConfig Unit where
  identifyFn := .ok ⟨.str "user123"⟩
  decide := fun _ _ => .ok (.variant "dark")
  hooks := some [bothHook]

def c2Options : GateOptions where
  key := "test-flag"
  defaultValue := .bool false

/-- A hook with only an `after` callback. -/
def afterRecorderHook : Hook Unit where
  after := some fun _ _ s => (.ok, s)

/-- A resolve hook that short-circuits with `{value: true}`. -/
def shortCircuitHook : Hook Unit where
  resolve := some fun _ s => (.found (.value true), s)

/-- Gate with an after-observing hook and a short-circuiting resolve hook. -/
def c3Config : GateConfig Unit where
  identifyFn := .ok ⟨.str "user123"⟩
  decide := fun _ _ => .ok (.value false)
  hooks := some [afterRecorderHook, shortCircuitHook]

def c3Options : GateOptions where
  key := "test-flag"
  defaultValue := .bool false

/-- Round with two joiners whose distinct-ids are the string `"42"` and the
number `42`, like the creator's. -/
def c4Input : RoundInput where
  flagKey := "test-flag"
  defaultValue := .bool false
  creatorIdentity := ⟨.num 42⟩
  joinerIdentities := [⟨.str "42"⟩, ⟨.num 42⟩]
  decideOutcome := .ok (.value true)

/-- A resolve hook (registered after the dedupe hook) that short-circuits
with `{value: true}`, e.g. a cache hit served by a lower-priority hook. -/
def constTrueHook : Hook DedupeState where
  resolve := some fun _ s => (.found (.value true), s)

/-- Gate with the dedupe hook followed by a short-circuiting resolve hook. -/
def c5Config : GateConfig DedupeState where
  identifyFn := .ok ⟨.str "user123"⟩
  decide := fun _ _ => .ok (.value false)
  hooks := some [dedupeHook, constTrueHook]

def c5Options : GateOptions where
  key := "test-flag"
  defaultValue := .bool false

/-- A resolve hook that always throws. -/
def throwingResolveHook : Hook Unit where
  resolve := some fun _ s => (.threw "Hook error", s)

/-- A resolve hook that short-circuits with `{value: true}` (the winner). -/
def winnerResolveHook : Hook Unit where
  resolve := some fun _ s => (.found (.value true), s)

/-- A trailing resolve hook that must never run. -/
def tailResolveHook : Hook Unit where
  resolve := some fun _ s => (.found (.value false), s)

/-- Gate with a throwing resolve hook, then a winning one, then a trailing
one. -/
def c6Config : GateConfig Unit where
  identifyFn := .ok ⟨.str "user123"⟩
  decide := fun _ _ => .ok (.value false)
  hooks := some [throwingResolveHook, winnerResolveHook, tailResolveHook]

def c6Options : GateOptions where
  key := "test-flag"
  defaultValue := .bool false

/-- A cache store holding `{variant: "purple"}` for `theme:user123` (a
variant that is NOT in the gate's declared variant set). -/
def purpleCache : CacheBehavior where
  get := fun k => if k = "theme:user123" then .found (.variant "purple") else .missing
  setOutcome := fun _ _ => .ok

/-- Variant gate over `["light","dark"]` with the purple cache hooked in. -/
def c7Config : GateConfig CacheState where
  identifyFn := .ok ⟨.str "user123"⟩
  decide := fun _ _ => .ok (.variant "light")
  hooks := some [cacheHook purpleCache]

def c7Options : GateOptions where
  key := "theme"
  defaultValue := .str "light"
  variants := some ["light", "dark"]

/-- A hook observing the error and finally stages. -/
def errorRecorderHook : Hook Unit where
  error := some fun _ _ s => (.ok, s)
  finallyCb := some fun _ s => (.ok, s)

/-- Gate whose identify callback itself throws `Error("Identity error")`. -/
def c9Config : GateConfig Unit where
  identifyFn := .threw "Identity error"
  decide := fun _ _ => .ok (.value true)
  hooks := some [errorRecorderHook]

def c9Options : GateOptions where
  key := "test-flag"
  defaultValue := .bool false

/-!
## Helper lemmas: shapes of stage event logs
-/

theorem runBeforeAux_shape {σ : Type} (ctx : HookContext) :
    ∀ (hooks : List (Hook σ)) (i : Nat) (s : σ) (ev : Event),
      ev ∈ (runBeforeAux ctx i hooks s).events → ∃ k, ev = .beforeCalled k ctx := by
  intro hooks
  induction hooks with
  | nil => intro i s ev hev; simp [runBeforeAux] at hev
  | cons h hs ih =>
    intro i s ev hev
    cases hcb : h.before with
    | none =>
      rw [runBeforeAux, hcb] at hev
      exact ih (i + 1) s ev hev
    | some cb =>
      rw [runBeforeAux, hcb] at hev
      rcases List.mem_cons.mp hev with hev | hev
      · exact ⟨i, hev⟩
      · exact ih (i + 1) (cb ctx s).2 ev hev

theorem runResolveAux_shape {σ : Type} (ctx : HookContext) :
    ∀ (hooks : List (Hook σ)) (i : Nat) (s : σ) (ev : Event),
      ev ∈ (runResolveAux ctx i hooks s).events →
        ∃ k out, ev = .resolveCalled k ctx out := by
  intro hooks
  induction hooks with
  | nil => intro i s ev hev; simp [runResolveAux] at hev
  | cons h hs ih =>
    intro i s ev hev
    cases hcb : h.resolve with
    | none =>
      rw [runResolveAux, hcb] at hev
      exact ih (i + 1) s ev hev
    | some cb =>
      simp only [runResolveAux, hcb] at hev
      rcases hout : cb ctx s with ⟨out, s'⟩
      rw [hout] at hev
      cases out with
      | found d =>
        simp at hev
        exact ⟨i, .found d, hev⟩
      | absent =>
        rcases List.mem_cons.mp hev with hev | hev
        · exact ⟨i, .absent, hev⟩
        · exact ih (i + 1) s' ev hev
      | threw e =>
        rcases List.mem_cons.mp hev with hev | hev
        · exact ⟨i, .threw e, hev⟩
        · exact ih (i + 1) s' ev hev
      | blocks =>
        simp at hev
        exact ⟨i, .blocks, hev⟩

theorem runAfterAux_shape {σ : Type} (ctx : HookContext) (d : Decision) :
    ∀ (hooks : List (Hook σ)) (i : Nat) (s : σ) (ev : Event),
      ev ∈ (runAfterAux ctx d i hooks s).events → ∃ k, ev = .afterCalled k ctx d := by
  intro hooks
  induction hooks with
  | nil => intro i s ev hev; simp [runAfterAux] at hev
  | cons h hs ih =>
    intro i s ev hev
    cases hcb : h.after with
    | none =>
      rw [runAfterAux, hcb] at hev
      exact ih (i + 1) s ev hev
    | some cb =>
      rw [runAfterAux, hcb] at hev
      rcases List.mem_cons.mp hev with hev | hev
      · exact ⟨i, hev⟩
      · exact ih (i + 1) (cb ctx d s).2 ev hev

theorem runErrorAux_shape {σ : Type} (ctx : HookContext) (e : ErrVal) :
    ∀ (hooks : List (Hook σ)) (i : Nat) (s : σ) (ev : Event),
      ev ∈ (runErrorAux ctx e i hooks s).events → ∃ k, ev = .errorCalled k ctx e := by
  intro hooks
  induction hooks with
  | nil => intro i s ev hev; simp [runErrorAux] at hev
  | cons h hs ih =>
    intro i s ev hev
    cases hcb : h.error with
    | none =>
      rw [runErrorAux, hcb] at hev
      exact ih (i + 1) s ev hev
    | some cb =>
      rw [runErrorAux, hcb] at hev
      rcases List.mem_cons.mp hev with hev | hev
      · exact ⟨i, hev⟩
      · exact ih (i + 1) (cb ctx e s).2 ev hev

theorem runFinallyAux_shape {σ : Type} (ctx : HookContext) :
    ∀ (hooks : List (Hook σ)) (i : Nat) (s : σ) (ev : Event),
      ev ∈ (runFinallyAux ctx i hooks s).events → ∃ k, ev = .finallyCalled k ctx := by
  intro hooks
  induction hooks with
  | nil => intro i s ev hev; simp [runFinallyAux] at hev
  | cons h hs ih =>
    intro i s ev hev
    cases hcb : h.finallyCb with
    | none =>
      rw [runFinallyAux, hcb] at hev
      exact ih (i + 1) s ev hev
    | some cb =>
      rw [runFinallyAux, hcb] at hev
      rcases List.mem_cons.mp hev with hev | hev
      · exact ⟨i, hev⟩
      · exact ih (i + 1) (cb ctx s).2 ev hev

/-!
## Helper lemmas: membership of stage event logs
-/

theorem runAfterAux_mem {σ : Type} (ctx : HookContext) (d : Decision) :
    ∀ (hooks : List (Hook σ)) (i j : Nat) (s : σ) (hj : j < hooks.length),
      ((hooks.get ⟨j, hj⟩).after).isSome →
      Event.afterCalled (i + j) ctx d ∈ (runAfterAux ctx d i hooks s).events := by
  intro hooks
  induction hooks with
  | nil => intro i j s hj _; exact absurd hj (by simp)
  | cons h hs ih =>
    intro i j s hj hcb
    cases j with
    | zero =>
      simp only [List.get] at hcb
      rcases hopt : h.after with _ | cb
      · rw [hopt] at hcb; simp at hcb
      · rw [runAfterAux, hopt]
        simp
    | succ j =>
      have hj' : j < hs.length := by simpa using hj
      have hcb' : ((hs.get ⟨j, hj'⟩).after).isSome := by simpa using hcb
      have harith : i + (j + 1) = (i + 1) + j := by omega
      rw [harith]
      cases hopt : h.after with
      | none =>
        rw [runAfterAux, hopt]
        exact ih (i + 1) j s hj' hcb'
      | some cb =>
        rw [runAfterAux, hopt]
        exact List.mem_cons_of_mem _ (ih (i + 1) j (cb ctx d s).2 hj' hcb')

theorem runErrorAux_mem {σ : Type} (ctx : HookContext) (e : ErrVal) :
    ∀ (hooks : List (Hook σ)) (i j : Nat) (s : σ) (hj : j < hooks.length),
      ((hooks.get ⟨j, hj⟩).error).isSome →
      Event.errorCalled (i + j) ctx e ∈ (runErrorAux ctx e i hooks s).events := by
  intro hooks
  induction hooks with
  | nil => intro i j s hj _; exact absurd hj (by simp)
  | cons h hs ih =>
    intro i j s hj hcb
    cases j with
    | zero =>
      simp only [List.get] at hcb
      rcases hopt : h.error with _ | cb
      · rw [hopt] at hcb; simp at hcb
      · rw [runErrorAux, hopt]
        simp
    | succ j =>
      have hj' : j < hs.length := by simpa using hj
      have hcb' : ((hs.get ⟨j, hj'⟩).error).isSome := by simpa using hcb
      have harith : i + (j + 1) = (i + 1) + j := by omega
      rw [harith]
      cases hopt : h.error with
      | none =>
        rw [runErrorAux, hopt]
        exact ih (i + 1) j s hj' hcb'
      | some cb =>
        rw [runErrorAux, hopt]
        exact List.mem_cons_of_mem _ (ih (i + 1) j (cb ctx e s).2 hj' hcb')

theorem runFinallyAux_mem {σ : Type} (ctx : HookContext) :
    ∀ (hooks : List (Hook σ)) (i j : Nat) (s : σ) (hj : j < hooks.length),
      ((hooks.get ⟨j, hj⟩).finallyCb).isSome →
      Event.finallyCalled (i + j) ctx ∈ (runFinallyAux ctx i hooks s).events := by
  intro hooks
  induction hooks with
  | nil => intro i j s hj _; exact absurd hj (by simp)
  | cons h hs ih =>
    intro i j s hj hcb
    cases j with
    | zero =>
      simp only [List.get] at hcb
      rcases hopt : h.finallyCb with _ | cb
      · rw [hopt] at hcb; simp at hcb
      · rw [runFinallyAux, hopt]
        simp
    | succ j =>
      have hj' : j < hs.length := by simpa using hj
      have hcb' : ((hs.get ⟨j, hj'⟩).finallyCb).isSome := by simpa using hcb
      have harith : i + (j + 1) = (i + 1) + j := by omega
      rw [harith]
      cases hopt : h.finallyCb with
      | none =>
        rw [runFinallyAux, hopt]
        exact ih (i + 1) j s hj' hcb'
      | some cb =>
        rw [runFinallyAux, hopt]
        exact List.mem_cons_of_mem _ (ih (i + 1) j (cb ctx s).2 hj' hcb')

/-!
## Helper lemmas: the seven control-flow paths of `executeGate`
-/

theorem executeGate_identify_error {σ : Type} (config : GateConfig σ)
    (options : GateOptions) (ov : Option Identity) (s0 : σ) (e : ErrVal)
    (h : identify config.identifyFn ov = .error e) :
    executeGate config options ov s0 =
      ⟨some options.defaultValue,
       (runFinallyHooks (config.hooks.getD []) ⟨options.key, none⟩
         (runErrorHooks (config.hooks.getD []) ⟨options.key, none⟩ e s0).state).state,
       (runErrorHooks (config.hooks.getD []) ⟨options.key, none⟩ e s0).events ++
         (runFinallyHooks (config.hooks.getD []) ⟨options.key, none⟩
           (runErrorHooks (config.hooks.getD []) ⟨options.key, none⟩ e s0).state).events⟩ := by
  simp only [executeGate, h, Option.getD_none]

theorem executeGate_blocked {σ : Type} (config : GateConfig σ)
    (options : GateOptions) (ov : Option Identity) (s0 : σ) (ident : Identity)
    (hI : identify config.identifyFn ov = .ok ident)
    (hR : (runResolveHooks (config.hooks.getD []) ⟨options.key, some ident⟩
        (runBeforeHooks (config.hooks.getD []) ⟨options.key, some ident⟩ s0).state).result
      = none) :
    executeGate config options ov s0 =
      ⟨none,
       (runResolveHooks (config.hooks.getD []) ⟨options.key, some ident⟩
         (runBeforeHooks (config.hooks.getD []) ⟨options.key, some ident⟩ s0).state).state,
       (runBeforeHooks (config.hooks.getD []) ⟨options.key, some ident⟩ s0).events ++
         (runResolveHooks (config.hooks.getD []) ⟨options.key, some ident⟩
           (runBeforeHooks (config.hooks.getD []) ⟨options.key, some ident⟩ s0).state).events⟩ := by
  simp only [executeGate, hI, hR]

theorem executeGate_shortCircuit_ok {σ : Type} (config : GateConfig σ)
    (options : GateOptions) (ov : Option Identity) (s0 : σ) (ident : Identity)
    (d : Decision) (v : GateValue)
    (hI : identify config.identifyFn ov = .ok ident)
    (hR : (runResolveHooks (config.hooks.getD []) ⟨options.key, some ident⟩
        (runBeforeHooks (config.hooks.getD []) ⟨options.key, some ident⟩ s0).state).result
      = some (some d))
    (hX : extractDecisionValue d
        (some (if options.variants.isSome then ExpectedType.variant else ExpectedType.boolean))
      = .ok v) :
    executeGate config options ov s0 =
      ⟨some v,
       (runFinallyHooks (config.hooks.getD []) ⟨options.key, some ident⟩
         (runResolveHooks (config.hooks.getD []) ⟨options.key, some ident⟩
           (runBeforeHooks (config.hooks.getD []) ⟨options.key, some ident⟩ s0).state).state).state,
       (runBeforeHooks (config.hooks.getD []) ⟨options.key, some ident⟩ s0).events ++
         (runResolveHooks (config.hooks.getD []) ⟨options.key, some ident⟩
           (runBeforeHooks (config.hooks.getD []) ⟨options.key, some ident⟩ s0).state).events ++
         (runFinallyHooks (config.hooks.getD []) ⟨options.key, some ident⟩
           (runResolveHooks (config.hooks.getD []) ⟨options.key, some ident⟩
             (runBeforeHooks (config.hooks.getD []) ⟨options.key, some ident⟩ s0).state).state).events⟩ := by
  simp only [executeGate, hI, hR, hX, Option.getD_none, Option.getD_some]

theorem executeGate_shortCircuit_err {σ : Type} (config : GateConfig σ)
    (options : GateOptions) (ov : Option Identity) (s0 : σ) (ident : Identity)
    (d : Decision) (e : ErrVal)
    (hI : identify config.identifyFn ov = .ok ident)
    (hR : (runResolveHooks (config.hooks.getD []) ⟨options.key, some ident⟩
        (runBeforeHooks (config.hooks.getD []) ⟨options.key, some ident⟩ s0).state).result
      = some (some d))
    (hX : extractDecisionValue d
        (some (if options.variants.isSome then ExpectedType.variant else ExpectedType.boolean))
      = .error e) :
    executeGate config options ov s0 =
      ⟨some options.defaultValue,
       (runFinallyHooks (config.hooks.getD []) ⟨options.key, some ident⟩
         (runErrorHooks (config.hooks.getD []) ⟨options.key, some ident⟩ e
           (runResolveHooks (config.hooks.getD []) ⟨options.key, some ident⟩
             (runBeforeHooks (config.hooks.getD []) ⟨options.key, some ident⟩ s0).state).state).state).state,
       (runBeforeHooks (config.hooks.getD []) ⟨options.key, some ident⟩ s0).events ++
         (runResolveHooks (config.hooks.getD []) ⟨options.key, some ident⟩
           (runBeforeHooks (config.hooks.getD []) ⟨options.key, some ident⟩ s0).state).events ++
         (runErrorHooks (config.hooks.getD []) ⟨options.key, some ident⟩ e
           (runResolveHooks (config.hooks.getD []) ⟨options.key, some ident⟩
             (runBeforeHooks (config.hooks.getD []) ⟨options.key, some ident⟩ s0).state).state).events ++
         (runFinallyHooks (config.hooks.getD []) ⟨options.key, some ident⟩
           (runErrorHooks (config.hooks.getD []) ⟨options.key, some ident⟩ e
             (runResolveHooks (config.hooks.getD []) ⟨options.key, some ident⟩
               (runBeforeHooks (config.hooks.getD []) ⟨options.key, some ident⟩ s0).state).state).state).events⟩ := by
  simp only [executeGate, hI, hR, hX, Option.getD_none, Option.getD_some]

theorem executeGate_decide_err {σ : Type} (config : GateConfig σ)
    (options : GateOptions) (ov : Option Identity) (s0 : σ) (ident : Identity)
    (e : ErrVal)
    (hI : identify config.identifyFn ov = .ok ident)
    (hR : (runResolveHooks (config.hooks.getD []) ⟨options.key, some ident⟩
        (runBeforeHooks (config.hooks.getD []) ⟨options.key, some ident⟩ s0).state).result
      = some none)
    (hE : evaluateDecision config.decide options.key ident options.variants = .error e) :
    executeGate config options ov s0 =
      ⟨some options.defaultValue,
       (runFinallyHooks (config.hooks.getD []) ⟨options.key, some ident⟩
         (runErrorHooks (config.hooks.getD []) ⟨options.key, some ident⟩ e
           (runResolveHooks (config.hooks.getD []) ⟨options.key, some ident⟩
             (runBeforeHooks (config.hooks.getD []) ⟨options.key, some ident⟩ s0).state).state).state).state,
       (runBeforeHooks (config.hooks.getD []) ⟨options.key, some ident⟩ s0).events ++
         (runResolveHooks (config.hooks.getD []) ⟨options.key, some ident⟩
           (runBeforeHooks (config.hooks.getD []) ⟨options.key, some ident⟩ s0).state).events ++
         [Event.decideCalled options.key ident] ++
         (runErrorHooks (config.hooks.getD []) ⟨options.key, some ident⟩ e
           (runResolveHooks (config.hooks.getD []) ⟨options.key, some ident⟩
             (runBeforeHooks (config.hooks.getD []) ⟨options.key, some ident⟩ s0).state).state).events ++
         (runFinallyHooks (config.hooks.getD []) ⟨options.key, some ident⟩
           (runErrorHooks (config.hooks.getD []) ⟨options.key, some ident⟩ e
             (runResolveHooks (config.hooks.getD []) ⟨options.key, some ident⟩
               (runBeforeHooks (config.hooks.getD []) ⟨options.key, some ident⟩ s0).state).state).state).events⟩ := by
  simp only [executeGate, hI, hR, hE, Option.getD_none, Option.getD_some]

theorem executeGate_decide_ok_extract_ok {σ : Type} (config : GateConfig σ)
    (options : GateOptions) (ov : Option Identity) (s0 : σ) (ident : Identity)
    (d : Decision) (v : GateValue)
    (hI : identify config.identifyFn ov = .ok ident)
    (hR : (runResolveHooks (config.hooks.getD []) ⟨options.key, some ident⟩
        (runBeforeHooks (config.hooks.getD []) ⟨options.key, some ident⟩ s0).state).result
      = some none)
    (hE : evaluateDecision config.decide options.key ident options.variants = .ok d)
    (hX : extractDecisionValue d
        (some (if options.variants.isSome then ExpectedType.variant else ExpectedType.boolean))
      = .ok v) :
    executeGate config options ov s0 =
      ⟨some v,
       (runFinallyHooks (config.hooks.getD []) ⟨options.key, some ident⟩
         (runAfterHooks (config.hooks.getD []) ⟨options.key, some ident⟩ d
           (runResolveHooks (config.hooks.getD []) ⟨options.key, some ident⟩
             (runBeforeHooks (config.hooks.getD []) ⟨options.key, some ident⟩ s0).state).state).state).state,
       (runBeforeHooks (config.hooks.getD []) ⟨options.key, some ident⟩ s0).events ++
         (runResolveHooks (config.hooks.getD []) ⟨options.key, some ident⟩
           (runBeforeHooks (config.hooks.getD []) ⟨options.key, some ident⟩ s0).state).events ++
         [Event.decideCalled options.key ident] ++
         (runAfterHooks (config.hooks.getD []) ⟨options.key, some ident⟩ d
           (runResolveHooks (config.hooks.getD []) ⟨options.key, some ident⟩
             (runBeforeHooks (config.hooks.getD []) ⟨options.key, some ident⟩ s0).state).state).events ++
         (runFinallyHooks (config.hooks.getD []) ⟨options.key, some ident⟩
           (runAfterHooks (config.hooks.getD []) ⟨options.key, some ident⟩ d
             (runResolveHooks (config.hooks.getD []) ⟨options.key, some ident⟩
               (runBeforeHooks (config.hooks.getD []) ⟨options.key, some ident⟩ s0).state).state).state).events⟩ := by
  simp only [executeGate, hI, hR, hE, hX, Option.getD_none, Option.getD_some]

theorem executeGate_decide_ok_extract_err {σ : Type} (config : GateConfig σ)
    (options : GateOptions) (ov : Option Identity) (s0 : σ) (ident : Identity)
    (d : Decision) (e : ErrVal)
    (hI : identify config.identifyFn ov = .ok ident)
    (hR : (runResolveHooks (config.hooks.getD []) ⟨options.key, some ident⟩
        (runBeforeHooks (config.hooks.getD []) ⟨options.key, some ident⟩ s0).state).result
      = some none)
    (hE : evaluateDecision config.decide options.key ident options.variants = .ok d)
    (hX : extractDecisionValue d
        (some (if options.variants.isSome then ExpectedType.variant else ExpectedType.boolean))
      = .error e) :
    executeGate config options ov s0 =
      ⟨some options.defaultValue,
       (runFinallyHooks (config.hooks.getD []) ⟨options.key, some ident⟩
         (runErrorHooks (config.hooks.getD []) ⟨options.key, some ident⟩ e
           (runAfterHooks (config.hooks.getD []) ⟨options.key, some ident⟩ d
             (runResolveHooks (config.hooks.getD []) ⟨options.key, some ident⟩
               (runBeforeHooks (config.hooks.getD []) ⟨options.key, some ident⟩ s0).state).state).state).state).state,
       (runBeforeHooks (config.hooks.getD []) ⟨options.key, some ident⟩ s0).events ++
         (runResolveHooks (config.hooks.getD []) ⟨options.key, some ident⟩
           (runBeforeHooks (config.hooks.getD []) ⟨options.key, some ident⟩ s0).state).events ++
         [Event.decideCalled options.key ident] ++
         (runAfterHooks (config.hooks.getD []) ⟨options.key, some ident⟩ d
           (runResolveHooks (config.hooks.getD []) ⟨options.key, some ident⟩
             (runBeforeHooks (config.hooks.getD []) ⟨options.key, some ident⟩ s0).state).state).events ++
         (runErrorHooks (config.hooks.getD []) ⟨options.key, some ident⟩ e
           (runAfterHooks (config.hooks.getD []) ⟨options.key, some ident⟩ d
             (runResolveHooks (config.hooks.getD []) ⟨options.key, some ident⟩
               (runBeforeHooks (config.hooks.getD []) ⟨options.key, some ident⟩ s0).state).state).state).events ++
         (runFinallyHooks (config.hooks.getD []) ⟨options.key, some ident⟩
           (runErrorHooks (config.hooks.getD []) ⟨options.key, some ident⟩ e
             (runAfterHooks (config.hooks.getD []) ⟨options.key, some ident⟩ d
               (runResolveHooks (config.hooks.getD []) ⟨options.key, some ident⟩
                 (runBeforeHooks (config.hooks.getD []) ⟨options.key, some ident⟩ s0).state).state).state).state).events⟩ := by
  simp only [executeGate, hI, hR, hE, hX, Option.getD_none, Option.getD_some]

/-!
## Helper lemmas: stage ranks
-/

theorem runBeforeHooks_rank {σ : Type} (hooks : List (Hook σ)) (ctx : HookContext)
    (s : σ) : ∀ ev ∈ (runBeforeHooks hooks ctx s).events, stageRank ev = 0 := by
  intro ev hev
  obtain ⟨k, rfl⟩ := runBeforeAux_shape ctx hooks 0 s ev hev
  rfl

theorem runResolveHooks_rank {σ : Type} (hooks : List (Hook σ)) (ctx : HookContext)
    (s : σ) : ∀ ev ∈ (runResolveHooks hooks ctx s).events, stageRank ev = 1 := by
  intro ev hev
  obtain ⟨k, out, rfl⟩ := runResolveAux_shape ctx hooks 0 s ev hev
  rfl

theorem runAfterHooks_rank {σ : Type} (hooks : List (Hook σ)) (ctx : HookContext)
    (d : Decision) (s : σ) :
    ∀ ev ∈ (runAfterHooks hooks ctx d s).events, stageRank ev = 3 := by
  intro ev hev
  obtain ⟨k, rfl⟩ := runAfterAux_shape ctx d hooks 0 s ev hev
  rfl

theorem runErrorHooks_rank {σ : Type} (hooks : List (Hook σ)) (ctx : HookContext)
    (e : ErrVal) (s : σ) :
    ∀ ev ∈ (runErrorHooks hooks ctx e s).events, stageRank ev = 4 := by
  intro ev hev
  obtain ⟨k, rfl⟩ := runErrorAux_shape ctx e hooks 0 s ev hev
  rfl

theorem runFinallyHooks_rank {σ : Type} (hooks : List (Hook σ)) (ctx : HookContext)
    (s : σ) : ∀ ev ∈ (runFinallyHooks hooks ctx s).events, stageRank ev = 5 := by
  intro ev hev
  obtain ⟨k, rfl⟩ := runFinallyAux_shape ctx hooks 0 s ev hev
  rfl

theorem pairwise_rankLe_of_const {l : List Event} {m : Nat}
    (h : ∀ ev ∈ l, stageRank ev = m) : l.Pairwise rankLe := by
  induction l with
  | nil => exact List.Pairwise.nil
  | cons a t ih =>
    refine List.Pairwise.cons ?_ (ih fun ev hev => h ev (List.mem_cons_of_mem a hev))
    intro b hb
    have ha := h a (List.mem_cons_self a t)
    have hb' := h b (List.mem_cons_of_mem a hb)
    show stageRank a ≤ stageRank b
    omega

theorem pairwise_rankLe_append_ranked (m1 m2 : Nat) {l1 l2 : List Event}
    (hm : m1 ≤ m2)
    (hb1 : ∀ ev ∈ l1, stageRank ev ≤ m1) (hp1 : l1.Pairwise rankLe)
    (h2 : ∀ ev ∈ l2, stageRank ev = m2) :
    (l1 ++ l2).Pairwise rankLe := by
  refine List.pairwise_append.mpr ⟨hp1, pairwise_rankLe_of_const h2, ?_⟩
  intro a ha b hb
  have ha' := hb1 a ha
  have hb' := h2 b hb
  show stageRank a ≤ stageRank b
  omega

theorem rank_bound_append (m1 m2 : Nat) {l1 l2 : List Event}
    (hm : m1 ≤ m2)
    (hb1 : ∀ ev ∈ l1, stageRank ev ≤ m1)
    (h2 : ∀ ev ∈ l2, stageRank ev = m2) :
    ∀ ev ∈ l1 ++ l2, stageRank ev ≤ m2 := by
  intro ev hev
  rcases List.mem_append.mp hev with h | h
  · exact le_trans (hb1 ev h) hm
  · exact le_of_eq (h2 ev h)

theorem ranked_le_of_eq {l : List Event} {m : Nat}
    (h : ∀ ev ∈ l, stageRank ev = m) : ∀ ev ∈ l, stageRank ev ≤ m :=
  fun ev hev => le_of_eq (h ev hev)

theorem countP_decide_zero {l : List Event}
    (h : ∀ ev ∈ l, isDecideEvent ev = false) : l.countP isDecideEvent = 0 := by
  rw [List.countP_eq_zero]
  intro a ha
  simp [h a ha]

/-!
## Claim C1
-/

/-- Claim C1: `executeGate` never fails past its own boundary. If identity
resolution fails, if the provider decide call or variant validation fails,
or if type extraction fails (on either the short-circuit or the provider
path), the caller-supplied `defaultValue` is returned; on success the
decision's extracted value itself is returned — including the boolean
`false`, despite the `result ?? options.defaultValue` fallback (the witness
instantiates a `{value: false}` decision on a gate whose default is
`true`). -/
theorem executeGate_default_on_failure {σ : Type} (config : GateConfig σ)
    (options : GateOptions) (ov : Option Identity) (s0 : σ) :
    (∀ e, identify config.identifyFn ov = .error e →
      (executeGate config options ov s0).result = some options.defaultValue)
    ∧ (∀ ident, identify config.identifyFn ov = .ok ident →
        (∀ d, (runResolveHooks (config.hooks.getD []) ⟨options.key, some ident⟩
              (runBeforeHooks (config.hooks.getD []) ⟨options.key, some ident⟩ s0).state).result
            = some (some d) →
          (∀ v, extractDecisionValue d
              (some (if options.variants.isSome then ExpectedType.variant else ExpectedType.boolean))
            = .ok v → (executeGate config options ov s0).result = some v)
          ∧ (∀ e, extractDecisionValue d
              (some (if options.variants.isSome then ExpectedType.variant else ExpectedType.boolean))
            = .error e →
              (executeGate config options ov s0).result = some options.defaultValue))
        ∧ ((runResolveHooks (config.hooks.getD []) ⟨options.key, some ident⟩
              (runBeforeHooks (config.hooks.getD []) ⟨options.key, some ident⟩ s0).state).result
            = some none →
          (∀ e, evaluateDecision config.decide options.key ident options.variants = .error e →
            (executeGate config options ov s0).result = some options.defaultValue)
          ∧ (∀ d, evaluateDecision config.decide options.key ident options.variants = .ok d →
            (∀ v, extractDecisionValue d
                (some (if options.variants.isSome then ExpectedType.variant else ExpectedType.boolean))
              = .ok v → (executeGate config options ov s0).result = some v)
            ∧ (∀ e, extractDecisionValue d
                (some (if options.variants.isSome then ExpectedType.variant else ExpectedType.boolean))
              = .error e →
                (executeGate config options ov s0).result = some options.defaultValue)))) := by
  refine ⟨fun e h => ?_, fun ident hI => ⟨fun d hR => ⟨fun v hX => ?_, fun e hX => ?_⟩,
    fun hR => ⟨fun e hE => ?_, fun d hE => ⟨fun v hX => ?_, fun e hX => ?_⟩⟩⟩⟩
  · rw [executeGate_identify_error config options ov s0 e h]
  · rw [executeGate_shortCircuit_ok config options ov s0 ident d v hI hR hX]
  · rw [executeGate_shortCircuit_err config options ov s0 ident d e hI hR hX]
  · rw [executeGate_decide_err config options ov s0 ident e hI hR hE]
  · rw [executeGate_decide_ok_extract_ok config options ov s0 ident d v hI hR hE hX]
  · rw [executeGate_decide_ok_extract_err config options ov s0 ident d e hI hR hE hX]

/-- Witness for C1: a provider decision `{value: false}` on a boolean gate
whose default is `true` yields `false`, not the default. -/
theorem executeGate_default_on_failure_witness :
    (executeGate c1Config c1Options none ()).result = some (GateValue.bool false)
    ∧ c1Options.defaultValue = GateValue.bool true := by
  constructor
  · have h := (executeGate_default_on_failure c1Config c1Options none ()).2
      ⟨.str "user123"⟩ rfl
    have h2 := (h.2 rfl).2 (.value false) rfl
    exact h2.1 (.bool false) rfl
  · rfl

/-!
## Claim C2
-/

/-- Counterexample for C2: a boolean gate whose provider answers a variant
decision runs BOTH the after hooks (with the decision) and the error hooks
(with the TypeMismatch failure) in the same evaluation, contradicting
"exactly one of the after stage or the error stage runs — never both". -/
theorem executeGate_after_and_error_both_run :
    ((executeGate c2Config c2Options none ()).events.any isAfterEvent) = true
    ∧ ((executeGate c2Config c2Options none ()).events.any isErrorEvent) = true := by
  exact ⟨rfl, rfl⟩

/-- Claim C2 (amended): for every single evaluation the event log is ordered
by lifecycle stage — every after event precedes every error event, and both
precede every finally event — and the only way both an after and an error
stage run in one evaluation is the type-assertion exception: the provider
decision `dA` was produced successfully (decide plus variant validation) and
its extraction then failed with the TypeMismatch error `eE`; in that case the
after hooks (with `dA`) run before the error hooks (with `eE`), and whichever
of the two stages runs completes before the finally stage starts. -/
theorem executeGate_stage_order {σ : Type} (config : GateConfig σ)
    (options : GateOptions) (ov : Option Identity) (s0 : σ) :
    (executeGate config options ov s0).events.Pairwise rankLe
    ∧ (∀ i cA dA j cE eE,
        Event.afterCalled i cA dA ∈ (executeGate config options ov s0).events →
        Event.errorCalled j cE eE ∈ (executeGate config options ov s0).events →
        ∃ ident, identify config.identifyFn ov = .ok ident
          ∧ evaluateDecision config.decide options.key ident options.variants = .ok dA
          ∧ extractDecisionValue dA
              (some (if options.variants.isSome then ExpectedType.variant else ExpectedType.boolean))
            = .error eE) := by
  cases hI : identify config.identifyFn ov with
  | error e =>
    rw [executeGate_identify_error config options ov s0 e hI]
    dsimp only
    constructor
    · exact pairwise_rankLe_append_ranked 4 5 (by omega)
        (ranked_le_of_eq (runErrorHooks_rank _ _ _ _))
        (pairwise_rankLe_of_const (runErrorHooks_rank _ _ _ _))
        (runFinallyHooks_rank _ _ _)
    · intro i cA dA j cE eE hA _
      rcases List.mem_append.mp hA with h | h
      · exact absurd (runErrorHooks_rank _ _ _ _ _ h) (by simp [stageRank])
      · exact absurd (runFinallyHooks_rank _ _ _ _ h) (by simp [stageRank])
  | ok ident =>
    rcases hR : (runResolveHooks (config.hooks.getD []) ⟨options.key, some ident⟩
        (runBeforeHooks (config.hooks.getD []) ⟨options.key, some ident⟩ s0).state).result
      with _ | (_ | d)
    · rw [executeGate_blocked config options ov s0 ident hI hR]
      dsimp only
      constructor
      · exact pairwise_rankLe_append_ranked 0 1 (by omega)
          (ranked_le_of_eq (runBeforeHooks_rank _ _ _))
          (pairwise_rankLe_of_const (runBeforeHooks_rank _ _ _))
          (runResolveHooks_rank _ _ _)
      · intro i cA dA j cE eE hA _
        rcases List.mem_append.mp hA with h | h
        · exact absurd (runBeforeHooks_rank _ _ _ _ h) (by simp [stageRank])
        · exact absurd (runResolveHooks_rank _ _ _ _ h) (by simp [stageRank])
    · cases hE : evaluateDecision config.decide options.key ident options.variants with
      | error e =>
        rw [executeGate_decide_err config options ov s0 ident e hI hR hE]
        dsimp only
        have hD : ∀ ev ∈ [Event.decideCalled options.key ident], stageRank ev = 2 := by
          intro ev hev
          rw [List.mem_singleton.mp hev]
          rfl
        constructor
        · refine pairwise_rankLe_append_ranked 4 5 (by omega) ?_ ?_
            (runFinallyHooks_rank _ _ _)
          · refine rank_bound_append 2 4 (by omega) ?_ (runErrorHooks_rank _ _ _ _)
            refine rank_bound_append 1 2 (by omega) ?_ hD
            exact rank_bound_append 0 1 (by omega)
              (ranked_le_of_eq (runBeforeHooks_rank _ _ _)) (runResolveHooks_rank _ _ _)
          · refine pairwise_rankLe_append_ranked 2 4 (by omega) ?_ ?_
              (runErrorHooks_rank _ _ _ _)
            · refine rank_bound_append 1 2 (by omega) ?_ hD
              exact rank_bound_append 0 1 (by omega)
                (ranked_le_of_eq (runBeforeHooks_rank _ _ _)) (runResolveHooks_rank _ _ _)
            · refine pairwise_rankLe_append_ranked 1 2 (by omega) ?_ ?_ hD
              · exact rank_bound_append 0 1 (by omega)
                  (ranked_le_of_eq (runBeforeHooks_rank _ _ _)) (runResolveHooks_rank _ _ _)
              · exact pairwise_rankLe_append_ranked 0 1 (by omega)
                  (ranked_le_of_eq (runBeforeHooks_rank _ _ _))
                  (pairwise_rankLe_of_const (runBeforeHooks_rank _ _ _))
                  (runResolveHooks_rank _ _ _)
        · intro i cA dA j cE eE hA _
          rcases List.mem_append.mp hA with h | h
          · rcases List.mem_append.mp h with h | h
            · rcases List.mem_append.mp h with h | h
              · rcases List.mem_append.mp h with h | h
                · exact absurd (runBeforeHooks_rank _ _ _ _ h) (by simp [stageRank])
                · exact absurd (runResolveHooks_rank _ _ _ _ h) (by simp [stageRank])
              · exact absurd (hD _ h) (by simp [stageRank])
            · exact absurd (runErrorHooks_rank _ _ _ _ _ h) (by simp [stageRank])
          · exact absurd (runFinallyHooks_rank _ _ _ _ h) (by simp [stageRank])
      | ok decision =>
        cases hX : extractDecisionValue decision
            (some (if options.variants.isSome then ExpectedType.variant else ExpectedType.boolean)) with
        | ok v =>
          rw [executeGate_decide_ok_extract_ok config options ov s0 ident decision v hI hR hE hX]
          dsimp only
          have hD : ∀ ev ∈ [Event.decideCalled options.key ident], stageRank ev = 2 := by
            intro ev hev
            rw [List.mem_singleton.mp hev]
            rfl
          constructor
          · refine pairwise_rankLe_append_ranked 3 5 (by omega) ?_ ?_
              (runFinallyHooks_rank _ _ _)
            · refine rank_bound_append 2 3 (by omega) ?_ (runAfterHooks_rank _ _ _ _)
              refine rank_bound_append 1 2 (by omega) ?_ hD
              exact rank_bound_append 0 1 (by omega)
                (ranked_le_of_eq (runBeforeHooks_rank _ _ _)) (runResolveHooks_rank _ _ _)
            · refine pairwise_rankLe_append_ranked 2 3 (by omega) ?_ ?_
                (runAfterHooks_rank _ _ _ _)
              · refine rank_bound_append 1 2 (by omega) ?_ hD
                exact rank_bound_append 0 1 (by omega)
                  (ranked_le_of_eq (runBeforeHooks_rank _ _ _)) (runResolveHooks_rank _ _ _)
              · refine pairwise_rankLe_append_ranked 1 2 (by omega) ?_ ?_ hD
                · exact rank_bound_append 0 1 (by omega)
                    (ranked_le_of_eq (runBeforeHooks_rank _ _ _)) (runResolveHooks_rank _ _ _)
                · exact pairwise_rankLe_append_ranked 0 1 (by omega)
                    (ranked_le_of_eq (runBeforeHooks_rank _ _ _))
                    (pairwise_rankLe_of_const (runBeforeHooks_rank _ _ _))
                    (runResolveHooks_rank _ _ _)
          · intro i cA dA j cE eE _ hErr
            rcases List.mem_append.mp hErr with h | h
            · rcases List.mem_append.mp h with h | h
              · rcases List.mem_append.mp h with h | h
                · rcases List.mem_append.mp h with h | h
                  · exact absurd (runBeforeHooks_rank _ _ _ _ h) (by simp [stageRank])
                  · exact absurd (runResolveHooks_rank _ _ _ _ h) (by simp [stageRank])
                · exact absurd (hD _ h) (by simp [stageRank])
              · exact absurd (runAfterHooks_rank _ _ _ _ _ h) (by simp [stageRank])
            · exact absurd (runFinallyHooks_rank _ _ _ _ h) (by simp [stageRank])
        | error e =>
          rw [executeGate_decide_ok_extract_err config options ov s0 ident decision e hI hR hE hX]
          dsimp only
          have hD : ∀ ev ∈ [Event.decideCalled options.key ident], stageRank ev = 2 := by
            intro ev hev
            rw [List.mem_singleton.mp hev]
            rfl
          constructor
          · refine pairwise_rankLe_append_ranked 4 5 (by omega) ?_ ?_
              (runFinallyHooks_rank _ _ _)
            · refine rank_bound_append 3 4 (by omega) ?_ (runErrorHooks_rank _ _ _ _)
              refine rank_bound_append 2 3 (by omega) ?_ (runAfterHooks_rank _ _ _ _)
              refine rank_bound_append 1 2 (by omega) ?_ hD
              exact rank_bound_append 0 1 (by omega)
                (ranked_le_of_eq (runBeforeHooks_rank _ _ _)) (runResolveHooks_rank _ _ _)
            · refine pairwise_rankLe_append_ranked 3 4 (by omega) ?_ ?_
                (runErrorHooks_rank _ _ _ _)
              · refine rank_bound_append 2 3 (by omega) ?_ (runAfterHooks_rank _ _ _ _)
                refine rank_bound_append 1 2 (by omega) ?_ hD
                exact rank_bound_append 0 1 (by omega)
                  (ranked_le_of_eq (runBeforeHooks_rank _ _ _)) (runResolveHooks_rank _ _ _)
              · refine pairwise_rankLe_append_ranked 2 3 (by omega) ?_ ?_
                  (runAfterHooks_rank _ _ _ _)
                · refine rank_bound_append 1 2 (by omega) ?_ hD
                  exact rank_bound_append 0 1 (by omega)
                    (ranked_le_of_eq (runBeforeHooks_rank _ _ _)) (runResolveHooks_rank _ _ _)
                · refine pairwise_rankLe_append_ranked 1 2 (by omega) ?_ ?_ hD
                  · exact rank_bound_append 0 1 (by omega)
                      (ranked_le_of_eq (runBeforeHooks_rank _ _ _)) (runResolveHooks_rank _ _ _)
                  · exact pairwise_rankLe_append_ranked 0 1 (by omega)
                      (ranked_le_of_eq (runBeforeHooks_rank _ _ _))
                      (pairwise_rankLe_of_const (runBeforeHooks_rank _ _ _))
                      (runResolveHooks_rank _ _ _)
          · intro i cA dA j cE eE hA hErr
            have hdA : dA = decision ∧ cA = (⟨options.key, some ident⟩ : HookContext) := by
              rcases List.mem_append.mp hA with h | h
              · rcases List.mem_append.mp h with h | h
                · rcases List.mem_append.mp h with h | h
                  · rcases List.mem_append.mp h with h | h
                    · rcases List.mem_append.mp h with h | h
                      · exact absurd (runBeforeHooks_rank _ _ _ _ h) (by simp [stageRank])
                      · exact absurd (runResolveHooks_rank _ _ _ _ h) (by simp [stageRank])
                    · exact absurd (hD _ h) (by simp [stageRank])
                  · obtain ⟨k, hk⟩ := runAfterAux_shape _ _ _ 0 _ _ h
                    cases hk
                    exact ⟨rfl, rfl⟩
                · exact absurd (runErrorHooks_rank _ _ _ _ _ h) (by simp [stageRank])
              · exact absurd (runFinallyHooks_rank _ _ _ _ h) (by simp [stageRank])
            have heE : eE = e := by
              rcases List.mem_append.mp hErr with h | h
              · rcases List.mem_append.mp h with h | h
                · rcases List.mem_append.mp h with h | h
                  · rcases List.mem_append.mp h with h | h
                    · rcases List.mem_append.mp h with h | h
                      · exact absurd (runBeforeHooks_rank _ _ _ _ h) (by simp [stageRank])
                      · exact absurd (runResolveHooks_rank _ _ _ _ h) (by simp [stageRank])
                    · exact absurd (hD _ h) (by simp [stageRank])
                  · exact absurd (runAfterHooks_rank _ _ _ _ _ h) (by simp [stageRank])
                · obtain ⟨k, hk⟩ := runErrorAux_shape _ _ _ 0 _ _ h
                  cases hk
                  rfl
              · exact absurd (runFinallyHooks_rank _ _ _ _ h) (by simp [stageRank])
            refine ⟨ident, rfl, ?_, ?_⟩
            · rw [hdA.1]
              exact hE
            · rw [hdA.1, heE]
              exact hX
    · cases hX : extractDecisionValue d
          (some (if options.variants.isSome then ExpectedType.variant else ExpectedType.boolean)) with
      | ok v =>
        rw [executeGate_shortCircuit_ok config options ov s0 ident d v hI hR hX]
        dsimp only
        constructor
        · refine pairwise_rankLe_append_ranked 1 5 (by omega) ?_ ?_
            (runFinallyHooks_rank _ _ _)
          · exact rank_bound_append 0 1 (by omega)
              (ranked_le_of_eq (runBeforeHooks_rank _ _ _)) (runResolveHooks_rank _ _ _)
          · exact pairwise_rankLe_append_ranked 0 1 (by omega)
              (ranked_le_of_eq (runBeforeHooks_rank _ _ _))
              (pairwise_rankLe_of_const (runBeforeHooks_rank _ _ _))
              (runResolveHooks_rank _ _ _)
        · intro i cA dA j cE eE hA _
          rcases List.mem_append.mp hA with h | h
          · rcases List.mem_append.mp h with h | h
            · exact absurd (runBeforeHooks_rank _ _ _ _ h) (by simp [stageRank])
            · exact absurd (runResolveHooks_rank _ _ _ _ h) (by simp [stageRank])
          · exact absurd (runFinallyHooks_rank _ _ _ _ h) (by simp [stageRank])
      | error e =>
        rw [executeGate_shortCircuit_err config options ov s0 ident d e hI hR hX]
        dsimp only
        constructor
        · refine pairwise_rankLe_append_ranked 4 5 (by omega) ?_ ?_
            (runFinallyHooks_rank _ _ _)
          · refine rank_bound_append 1 4 (by omega) ?_ (runErrorHooks_rank _ _ _ _)
            exact rank_bound_append 0 1 (by omega)
              (ranked_le_of_eq (runBeforeHooks_rank _ _ _)) (runResolveHooks_rank _ _ _)
          · refine pairwise_rankLe_append_ranked 1 4 (by omega) ?_ ?_
              (runErrorHooks_rank _ _ _ _)
            · exact rank_bound_append 0 1 (by omega)
                (ranked_le_of_eq (runBeforeHooks_rank _ _ _)) (runResolveHooks_rank _ _ _)
            · exact pairwise_rankLe_append_ranked 0 1 (by omega)
                (ranked_le_of_eq (runBeforeHooks_rank _ _ _))
                (pairwise_rankLe_of_const (runBeforeHooks_rank _ _ _))
                (runResolveHooks_rank _ _ _)
        · intro i cA dA j cE eE hA _
          rcases List.mem_append.mp hA with h | h
          · rcases List.mem_append.mp h with h | h
            · rcases List.mem_append.mp h with h | h
              · exact absurd (runBeforeHooks_rank _ _ _ _ h) (by simp [stageRank])
              · exact absurd (runResolveHooks_rank _ _ _ _ h) (by simp [stageRank])
            · exact absurd (runErrorHooks_rank _ _ _ _ _ h) (by simp [stageRank])
          · exact absurd (runFinallyHooks_rank _ _ _ _ h) (by simp [stageRank])

/-- Witness for the amended C2: on the concrete both-stages-run evaluation,
the theorem identifies the decision and the TypeMismatch failure. -/
theorem executeGate_stage_order_witness :
    ∃ ident, identify c2Config.identifyFn none = .ok ident
      ∧ evaluateDecision c2Config.decide c2Options.key ident c2Options.variants
        = .ok (.variant "dark")
      ∧ extractDecisionValue (.variant "dark")
          (some (if c2Options.variants.isSome then ExpectedType.variant else ExpectedType.boolean))
        = .error "Type mismatch: expected boolean decision but received variant \"dark\"" := by
  exact (executeGate_stage_order c2Config c2Options none ()).2 0
    ⟨"test-flag", some ⟨.str "user123"⟩⟩ (.variant "dark") 0
    ⟨"test-flag", some ⟨.str "user123"⟩⟩
    "Type mismatch: expected boolean decision but received variant \"dark\""
    (by decide) (by decide)

/-!
## Claim C3
-/

/-- Claim C3 (code evaluated at the failing input): a resolve hook
short-circuit produces a successful decision, yet the after hooks are NOT
invoked — the log of the whole evaluation holds only the short-circuiting
resolve call, with no after event, although a hook with an `after` callback
is registered. This contradicts the claim that after hooks run on a
successful decision from a resolve short-circuit. -/
theorem executeGate_short_circuit_skips_after_hooks :
    (executeGate c3Config c3Options none ()).result = some (GateValue.bool true)
    ∧ (executeGate c3Config c3Options none ()).events
      = [Event.resolveCalled 1 ⟨"test-flag", some ⟨.str "user123"⟩⟩ (.found (.value true))]
    ∧ (executeGate c3Config c3Options none ()).events.any isAfterEvent = false := by
  exact ⟨rfl, rfl, rfl⟩

/-!
## Claim C5
-/

/-- Claim C5 (code evaluated at the failing input): with the dedupe hook
registered before a resolve hook that short-circuits, the evaluation
completes (returning the short-circuit value) but the PendingRequest entry
the dedupe resolve created for `test-flag:user123` is still in the pending
map afterwards, with its promise never settled — the entry outlives its
evaluation round, contradicting the claim. -/
theorem dedupe_pending_entry_leak :
    (executeGate c5Config c5Options none {}).result = some (GateValue.bool true)
    ∧ (executeGate c5Config c5Options none {}).state.pending = [("test-flag:user123", 0)]
    ∧ (executeGate c5Config c5Options none {}).state.resolvedLog = []
    ∧ (executeGate c5Config c5Options none {}).state.rejectedLog = [] := by
  exact ⟨rfl, rfl, rfl, rfl⟩

/-!
## Claim C9
-/

/-- Counterexample for C9: when the identify callback itself throws
`Error("Identity error")`, the error hooks receive that very error — whose
message is not the `Identity not found` message that an
IdentityNotFound-shaped failure carries (`src/lib/index.ts` line 14). -/
theorem identify_throw_error_payload :
    Event.errorCalled 0 ⟨"test-flag", none⟩ "Identity error"
      ∈ (executeGate c9Config c9Options none ()).events
    ∧ identify c9Config.identifyFn none = .error "Identity error"
    ∧ "Identity error" ≠ "Identity not found" := by
  exact ⟨by decide, rfl, by decide⟩

/-- Claim C9 (amended): if the identify callback itself throws `e` and no
override identity was given, the evaluation returns the default value, every
hook with an error callback is invoked with the thrown error `e` itself (not
a wrapped IdentityNotFound error) and a HookContext whose identity is
absent, and every hook with a finally callback still runs with that
context. -/
theorem identify_throw_behavior {σ : Type} (config : GateConfig σ)
    (options : GateOptions) (s0 : σ) (e : ErrVal)
    (hid : config.identifyFn = .threw e) :
    (executeGate config options none s0).result = some options.defaultValue
    ∧ (∀ j hj, (((config.hooks.getD []).get ⟨j, hj⟩).error).isSome →
        Event.errorCalled j ⟨options.key, none⟩ e
          ∈ (executeGate config options none s0).events)
    ∧ (∀ j hj, (((config.hooks.getD []).get ⟨j, hj⟩).finallyCb).isSome →
        Event.finallyCalled j ⟨options.key, none⟩
          ∈ (executeGate config options none s0).events) := by
  have hI : identify config.identifyFn none = .error e := by rw [hid]; rfl
  rw [executeGate_identify_error config options none s0 e hI]
  dsimp only
  refine ⟨rfl, ?_, ?_⟩
  · intro j hj hcb
    refine List.mem_append.mpr (Or.inl ?_)
    have hm := runErrorAux_mem ⟨options.key, none⟩ e (config.hooks.getD []) 0 j s0 hj hcb
    simpa [runErrorHooks] using hm
  · intro j hj hcb
    refine List.mem_append.mpr (Or.inr ?_)
    have hm := runFinallyAux_mem ⟨options.key, none⟩ (config.hooks.getD []) 0 j
      (runErrorHooks (config.hooks.getD []) ⟨options.key, none⟩ e s0).state hj hcb
    simpa [runFinallyHooks] using hm

/-- Witness for the amended C9 at a concrete throwing identify callback. -/
theorem identify_throw_behavior_witness :
    (executeGate c9Config c9Options none ()).result = some (GateValue.bool false)
    ∧ Event.errorCalled 0 ⟨"test-flag", none⟩ "Identity error"
      ∈ (executeGate c9Config c9Options none ()).events
    ∧ Event.finallyCalled 0 ⟨"test-flag", none⟩
      ∈ (executeGate c9Config c9Options none ()).events := by
  have h := identify_throw_behavior c9Config c9Options () "Identity error" rfl
  exact ⟨h.1, h.2.1 0 (by decide) rfl, h.2.2 0 (by decide) rfl⟩

/-!
## Claim C10
-/

/-- Claim C10: when the pending map has no entry for the context's composite
key, the dedupe hook's after and error callbacks are exactly those installed
by `dedupeHook`, and each leaves the whole dedupe state unchanged (the map
untouched, no promise settled in either ledger) and completes without
throwing. -/
theorem dedupe_after_error_noop (s : DedupeState) (ctx : HookContext)
    (d : Decision) (e : ErrVal)
    (h : assocLookup s.pending (getKey ctx) = none) :
    dedupeHook.after = some dedupeAfter
    ∧ dedupeHook.error = some dedupeError
    ∧ dedupeAfter ctx d s = (.ok, s)
    ∧ dedupeError ctx e s = (.ok, s) := by
  refine ⟨rfl, rfl, ?_, ?_⟩
  · simp only [dedupeAfter, h]
  · simp only [dedupeError, h]

/-- Witness for C10 on the empty dedupe state. -/
theorem dedupe_after_error_noop_witness :
    dedupeAfter ⟨"test-flag", some ⟨.str "user123"⟩⟩ (.value true) {} = (.ok, {})
    ∧ dedupeError ⟨"test-flag", some ⟨.str "user123"⟩⟩ "boom" {} = (.ok, {}) := by
  have h := dedupe_after_error_noop {} ⟨"test-flag", some ⟨.str "user123"⟩⟩
    (.value true) "boom" rfl
  exact ⟨h.2.2.1, h.2.2.2⟩

/-!
## Claim C6
-/

theorem runResolveAux_append {σ : Type} (ctx : HookContext) (l1 l2 : List (Hook σ)) :
    ∀ (i : Nat) (s : σ), (runResolveAux ctx i l1 s).result = some none →
    runResolveAux ctx i (l1 ++ l2) s =
      ⟨(runResolveAux ctx (i + l1.length) l2 (runResolveAux ctx i l1 s).state).result,
       (runResolveAux ctx (i + l1.length) l2 (runResolveAux ctx i l1 s).state).state,
       (runResolveAux ctx i l1 s).events ++
         (runResolveAux ctx (i + l1.length) l2 (runResolveAux ctx i l1 s).state).events⟩ := by
  induction l1 with
  | nil =>
    intro i s _
    simp only [List.nil_append, List.length_nil, Nat.add_zero]
    rfl
  | cons h hs ih =>
    intro i s h1
    cases hcb : h.resolve with
    | none =>
      have harith : i + (h :: hs).length = (i + 1) + hs.length := by
        simp [List.length_cons]
        omega
      rw [runResolveAux, hcb] at h1
      simp only [List.cons_append, runResolveAux, hcb, harith]
      exact ih (i + 1) s h1
    | some cb =>
      rcases hout : cb ctx s with ⟨out, s'⟩
      have harith : i + (h :: hs).length = (i + 1) + hs.length := by
        simp only [List.length_cons]
        omega
      simp only [runResolveAux, hcb, hout] at h1
      cases out with
      | found d => simp at h1
      | blocks => simp at h1
      | absent =>
        dsimp only at h1
        simp only [List.cons_append, runResolveAux, hcb, hout, harith, List.append_eq]
        rw [ih (i + 1) s' h1]
      | threw e =>
        dsimp only at h1
        simp only [List.cons_append, runResolveAux, hcb, hout, harith, List.append_eq]
        rw [ih (i + 1) s' h1]

/-- Claim C6: the resolve hooks run strictly one at a time in registration
order. If every resolve callback before hook `h` yields absent or throws
(outcome `some none` over the prefix `l1`) and `h`'s callback returns the
decision `d`, then the resolve stage stops at `h`: its result is `d`, its
state is `h`'s output state, and its log is the prefix's invocations
followed by `h`'s invocation at index `l1.length` — no later hook of `l2`
is invoked (a throwing hook in `l1` is simply skipped, as the witness
instantiates). Moreover the whole evaluation makes no provider decide
call. -/
theorem runResolveHooks_first_wins {σ : Type} (config : GateConfig σ)
    (options : GateOptions) (ov : Option Identity) (s0 : σ) (ident : Identity)
    (l1 : List (Hook σ)) (cb : HookContext → σ → ResolveOut × σ) (h : Hook σ)
    (l2 : List (Hook σ)) (d : Decision) (s' : σ)
    (hhooks : config.hooks.getD [] = l1 ++ h :: l2)
    (hI : identify config.identifyFn ov = .ok ident)
    (h1 : (runResolveAux ⟨options.key, some ident⟩ 0 l1
        (runBeforeHooks (config.hooks.getD []) ⟨options.key, some ident⟩ s0).state).result
      = some none)
    (hcb : h.resolve = some cb)
    (hout : cb ⟨options.key, some ident⟩
        (runResolveAux ⟨options.key, some ident⟩ 0 l1
          (runBeforeHooks (config.hooks.getD []) ⟨options.key, some ident⟩ s0).state).state
      = (.found d, s')) :
    runResolveHooks (config.hooks.getD []) ⟨options.key, some ident⟩
        (runBeforeHooks (config.hooks.getD []) ⟨options.key, some ident⟩ s0).state
      = ⟨some (some d), s',
         (runResolveAux ⟨options.key, some ident⟩ 0 l1
           (runBeforeHooks (config.hooks.getD []) ⟨options.key, some ident⟩ s0).state).events
           ++ [Event.resolveCalled l1.length ⟨options.key, some ident⟩ (.found d)]⟩
    ∧ (executeGate config options ov s0).events.countP isDecideEvent = 0 := by
  have hres : runResolveHooks (config.hooks.getD []) ⟨options.key, some ident⟩
      (runBeforeHooks (config.hooks.getD []) ⟨options.key, some ident⟩ s0).state
      = ⟨some (some d), s',
         (runResolveAux ⟨options.key, some ident⟩ 0 l1
           (runBeforeHooks (config.hooks.getD []) ⟨options.key, some ident⟩ s0).state).events
           ++ [Event.resolveCalled l1.length ⟨options.key, some ident⟩ (.found d)]⟩ := by
    rw [runResolveHooks]
    nth_rewrite 1 [hhooks]
    rw [runResolveAux_append ⟨options.key, some ident⟩ l1 (h :: l2) 0
      (runBeforeHooks (config.hooks.getD []) ⟨options.key, some ident⟩ s0).state h1]
    have hstep : runResolveAux ⟨options.key, some ident⟩ (0 + l1.length) (h :: l2)
        (runResolveAux ⟨options.key, some ident⟩ 0 l1
          (runBeforeHooks (config.hooks.getD []) ⟨options.key, some ident⟩ s0).state).state
        = ⟨some (some d), s',
           [Event.resolveCalled (0 + l1.length) ⟨options.key, some ident⟩ (.found d)]⟩ := by
      simp only [runResolveAux, hcb, hout]
    rw [hstep]
    simp
  refine ⟨hres, ?_⟩
  have hR : (runResolveHooks (config.hooks.getD []) ⟨options.key, some ident⟩
      (runBeforeHooks (config.hooks.getD []) ⟨options.key, some ident⟩ s0).state).result
      = some (some d) := by rw [hres]
  cases hX : extractDecisionValue d
      (some (if options.variants.isSome then ExpectedType.variant else ExpectedType.boolean)) with
  | ok v =>
    rw [executeGate_shortCircuit_ok config options ov s0 ident d v hI hR hX]
    dsimp only
    refine countP_decide_zero ?_
    intro ev hev
    rcases List.mem_append.mp hev with hm | hm
    · rcases List.mem_append.mp hm with hm | hm
      · obtain ⟨k, rfl⟩ := runBeforeAux_shape _ _ 0 _ _ hm
        rfl
      · obtain ⟨k, out, rfl⟩ := runResolveAux_shape _ _ 0 _ _ hm
        rfl
    · obtain ⟨k, rfl⟩ := runFinallyAux_shape _ _ 0 _ _ hm
      rfl
  | error e =>
    rw [executeGate_shortCircuit_err config options ov s0 ident d e hI hR hX]
    dsimp only
    refine countP_decide_zero ?_
    intro ev hev
    rcases List.mem_append.mp hev with hm | hm
    · rcases List.mem_append.mp hm with hm | hm
      · rcases List.mem_append.mp hm with hm | hm
        · obtain ⟨k, rfl⟩ := runBeforeAux_shape _ _ 0 _ _ hm
          rfl
        · obtain ⟨k, out, rfl⟩ := runResolveAux_shape _ _ 0 _ _ hm
          rfl
      · obtain ⟨k, rfl⟩ := runErrorAux_shape _ _ _ 0 _ _ hm
        rfl
    · obtain ⟨k, rfl⟩ := runFinallyAux_shape _ _ 0 _ _ hm
      rfl

/-- Witness for C6: a throwing resolve hook is skipped, the second hook's
decision wins at index 1, the third hook is never invoked, and no decide
call is made. -/
theorem runResolveHooks_first_wins_witness :
    runResolveHooks (c6Config.hooks.getD []) ⟨"test-flag", some ⟨.str "user123"⟩⟩
        (runBeforeHooks (c6Config.hooks.getD [])
          ⟨"test-flag", some ⟨.str "user123"⟩⟩ ()).state
      = ⟨some (some (.value true)), (),
         [Event.resolveCalled 0 ⟨"test-flag", some ⟨.str "user123"⟩⟩ (.threw "Hook error"),
          Event.resolveCalled 1 ⟨"test-flag", some ⟨.str "user123"⟩⟩ (.found (.value true))]⟩
    ∧ (executeGate c6Config c6Options none ()).events.countP isDecideEvent = 0 := by
  have h := runResolveHooks_first_wins c6Config c6Options none () ⟨.str "user123"⟩
    [throwingResolveHook] (fun _ s => (.found (.value true), s)) winnerResolveHook
    [tailResolveHook] (.value true) () rfl rfl rfl rfl rfl
  exact ⟨h.1, h.2⟩

/-!
## Claim C7
-/

/-- Claim C7: a cache hit — `Cache.get` returning a decision `d` for the
composite key — makes the evaluation return `d`'s extracted value as-is and
never invoke the provider decide callback. Only the boolean/variant type
assertion is applied to `d`: no hypothesis relates `d`'s variant to the
gate's declared variants set, and the witness returns a cached variant that
is NOT in the declared set. -/
theorem cache_hit_skips_decide (cache : CacheBehavior) (config : GateConfig CacheState)
    (options : GateOptions) (ov : Option Identity) (s0 : CacheState) (ident : Identity)
    (d : Decision) (v : GateValue)
    (hhooks : config.hooks = some [cacheHook cache])
    (hI : identify config.identifyFn ov = .ok ident)
    (hget : cache.get (getKey ⟨options.key, some ident⟩) = .found d)
    (hX : extractDecisionValue d
        (some (if options.variants.isSome then ExpectedType.variant else ExpectedType.boolean))
      = .ok v) :
    (executeGate config options ov s0).result = some v
    ∧ (executeGate config options ov s0).events.countP isDecideEvent = 0 := by
  have hR : (runResolveHooks (config.hooks.getD []) ⟨options.key, some ident⟩
      (runBeforeHooks (config.hooks.getD []) ⟨options.key, some ident⟩ s0).state).result
      = some (some d) := by
    simp only [hhooks, Option.getD_some, runBeforeHooks, runBeforeAux, runResolveHooks,
      runResolveAux, cacheHook, hget]
  constructor
  · rw [executeGate_shortCircuit_ok config options ov s0 ident d v hI hR hX]
  · rw [executeGate_shortCircuit_ok config options ov s0 ident d v hI hR hX]
    dsimp only
    refine countP_decide_zero ?_
    intro ev hev
    rcases List.mem_append.mp hev with hm | hm
    · rcases List.mem_append.mp hm with hm | hm
      · obtain ⟨k, rfl⟩ := runBeforeAux_shape _ _ 0 _ _ hm
        rfl
      · obtain ⟨k, out, rfl⟩ := runResolveAux_shape _ _ 0 _ _ hm
        rfl
    · obtain ⟨k, rfl⟩ := runFinallyAux_shape _ _ 0 _ _ hm
      rfl

/-- Witness for C7: the cached decision `{variant: "purple"}` is returned
as-is even though `"purple"` is not in the declared variants (variant
validation would reject it), and no decide call happens. -/
theorem cache_hit_skips_decide_witness :
    (executeGate c7Config c7Options none {}).result = some (GateValue.str "purple")
    ∧ (executeGate c7Config c7Options none {}).events.countP isDecideEvent = 0
    ∧ validateVariant "purple" c7Options.variants = .error "Invalid variant: purple" := by
  have h := cache_hit_skips_decide purpleCache c7Config c7Options none {} ⟨.str "user123"⟩
    (.variant "purple") (.str "purple") rfl rfl (by decide) rfl
  exact ⟨h.1, h.2, rfl⟩

/-!
## Helper lemmas: the coalesced round
-/

/-- Joining does not mutate the dedupe state: when a pending entry exists
for the key, the dedupe resolve callback only awaits it. This justifies the
round model's pointwise treatment of joiners: their resolve invocations
commute with each other and with the creator's steps. -/
theorem dedupeResolve_join_frame (ctx : HookContext) (s : DedupeState) (pid : Nat)
    (h : assocLookup s.pending (getKey ctx) = some pid) :
    dedupeResolve ctx s = (awaitPromise s pid, s) := by
  simp only [dedupeResolve, h]

/-- While the provider call is in flight, the pending map holds exactly the
creator's entry, numbered 0. -/
theorem roundMidState_eq (inp : RoundInput) :
    roundMidState inp = ⟨[(getKey (creatorCtx inp), 0)], 1, [], []⟩ := rfl

/-- The creator's run when the provider call (plus variant validation)
succeeds with decision `d`: the pending entry is gone, promise 0 was
resolved with `d`, and exactly one decide call was made. -/
theorem roundCreatorRun_success (inp : RoundInput) (d : Decision)
    (hEval : evaluateDecision (fun _ _ => inp.decideOutcome) inp.flagKey
        inp.creatorIdentity inp.variants = .ok d) :
    (roundCreatorRun inp).state = ⟨[], 1, [(0, d)], []⟩
    ∧ (roundCreatorRun inp).events.countP isDecideEvent = 1 := by
  have hI : identify (roundConfig inp).identifyFn none = .ok inp.creatorIdentity := rfl
  have hR : (runResolveHooks ((roundConfig inp).hooks.getD [])
      ⟨(roundOptions inp).key, some inp.creatorIdentity⟩
      (runBeforeHooks ((roundConfig inp).hooks.getD [])
        ⟨(roundOptions inp).key, some inp.creatorIdentity⟩ ({} : DedupeState)).state).result
      = some none := rfl
  have hE : evaluateDecision (roundConfig inp).decide (roundOptions inp).key
      inp.creatorIdentity (roundOptions inp).variants = .ok d := hEval
  unfold roundCreatorRun
  cases hX : extractDecisionValue d
      (some (if (roundOptions inp).variants.isSome then ExpectedType.variant
        else ExpectedType.boolean)) with
  | ok v =>
    rw [executeGate_decide_ok_extract_ok (roundConfig inp) (roundOptions inp) none {}
      inp.creatorIdentity d v hI hR hE hX]
    constructor
    · simp [runFinallyHooks, runFinallyAux, runAfterHooks, runAfterAux, runBeforeHooks,
        runBeforeAux, runResolveHooks, runResolveAux, dedupeHook, dedupeAfter,
        dedupeResolve, assocLookup, eraseKey]
    · simp [runFinallyHooks, runFinallyAux, runAfterHooks, runAfterAux, runBeforeHooks,
        runBeforeAux, runResolveHooks, runResolveAux, dedupeHook, dedupeAfter,
        dedupeResolve, assocLookup, eraseKey, List.countP_cons, isDecideEvent]
  | error e =>
    rw [executeGate_decide_ok_extract_err (roundConfig inp) (roundOptions inp) none {}
      inp.creatorIdentity d e hI hR hE hX]
    constructor
    · simp [runFinallyHooks, runFinallyAux, runErrorHooks, runErrorAux, runAfterHooks,
        runAfterAux, runBeforeHooks, runBeforeAux, runResolveHooks, runResolveAux,
        dedupeHook, dedupeAfter, dedupeError, dedupeResolve, assocLookup, eraseKey]
    · simp [runFinallyHooks, runFinallyAux, runErrorHooks, runErrorAux, runAfterHooks,
        runAfterAux, runBeforeHooks, runBeforeAux, runResolveHooks, runResolveAux,
        dedupeHook, dedupeAfter, dedupeError, dedupeResolve, assocLookup, eraseKey,
        List.countP_cons, isDecideEvent]

/-- The creator's run when the provider call (or variant validation) fails
with `e`: the pending entry is gone and promise 0 was rejected with `e`. -/
theorem roundCreatorRun_failure (inp : RoundInput) (e : ErrVal)
    (hEval : evaluateDecision (fun _ _ => inp.decideOutcome) inp.flagKey
        inp.creatorIdentity inp.variants = .error e) :
    (roundCreatorRun inp).state = ⟨[], 1, [], [(0, e)]⟩ := by
  have hI : identify (roundConfig inp).identifyFn none = .ok inp.creatorIdentity := rfl
  have hR : (runResolveHooks ((roundConfig inp).hooks.getD [])
      ⟨(roundOptions inp).key, some inp.creatorIdentity⟩
      (runBeforeHooks ((roundConfig inp).hooks.getD [])
        ⟨(roundOptions inp).key, some inp.creatorIdentity⟩ ({} : DedupeState)).state).result
      = some none := rfl
  have hE : evaluateDecision (roundConfig inp).decide (roundOptions inp).key
      inp.creatorIdentity (roundOptions inp).variants = .error e := hEval
  unfold roundCreatorRun
  rw [executeGate_decide_err (roundConfig inp) (roundOptions inp) none {}
    inp.creatorIdentity e hI hR hE]
  simp [runFinallyHooks, runFinallyAux, runErrorHooks, runErrorAux, runBeforeHooks,
    runBeforeAux, runResolveHooks, runResolveAux, dedupeHook, dedupeError,
    dedupeResolve, assocLookup, eraseKey]

/-- A joiner whose canonical distinct-id equals the creator's receives
exactly the decision the creator's promise was resolved with. -/
theorem joinerOutcome_success (inp : RoundInput) (d : Decision) (j : Identity)
    (hkey : j.distinctId.canon = inp.creatorIdentity.distinctId.canon)
    (hstate : (roundCreatorRun inp).state = ⟨[], 1, [(0, d)], []⟩) :
    joinerOutcome inp j = .found d := by
  have hk : getKey (joinerCtx inp j) = getKey (creatorCtx inp) := by
    simp [getKey, joinerCtx, creatorCtx, hkey]
  unfold joinerOutcome joinerObservedPid
  rw [roundMidState_eq, hk]
  simp [assocLookup, hstate, awaitPromise]

/-- A joiner whose canonical distinct-id equals the creator's receives
exactly the error the creator's promise was rejected with. -/
theorem joinerOutcome_failure (inp : RoundInput) (e : ErrVal) (j : Identity)
    (hkey : j.distinctId.canon = inp.creatorIdentity.distinctId.canon)
    (hstate : (roundCreatorRun inp).state = ⟨[], 1, [], [(0, e)]⟩) :
    joinerOutcome inp j = .threw e := by
  have hk : getKey (joinerCtx inp j) = getKey (creatorCtx inp) := by
    simp [getKey, joinerCtx, creatorCtx, hkey]
  unfold joinerOutcome joinerObservedPid
  rw [roundMidState_eq, hk]
  simp [assocLookup, hstate, awaitPromise]

/-- Aggregated success conclusions of a coalesced round. -/
theorem dedupeRound_success_all (inp : RoundInput) (d : Decision)
    (hkeys : ∀ j ∈ inp.joinerIdentities,
      j.distinctId.canon = inp.creatorIdentity.distinctId.canon)
    (hEval : evaluateDecision (fun _ _ => inp.decideOutcome) inp.flagKey
        inp.creatorIdentity inp.variants = .ok d) :
    roundJoinerOutcomes inp = inp.joinerIdentities.map (fun _ => .found d)
    ∧ roundDecideCalls inp = 1 := by
  obtain ⟨hstate, hcount⟩ := roundCreatorRun_success inp d hEval
  have hmap : roundJoinerOutcomes inp = inp.joinerIdentities.map (fun _ => .found d) := by
    unfold roundJoinerOutcomes
    exact List.map_congr_left fun j hj => joinerOutcome_success inp d j (hkeys j hj) hstate
  refine ⟨hmap, ?_⟩
  unfold roundDecideCalls
  rw [hcount, hmap]
  have hzero : (inp.joinerIdentities.map (fun _ => ResolveOut.found d)).countP
      (fun o => match o with
        | .absent => true
        | .threw _ => true
        | _ => false) = 0 := by
    rw [List.countP_eq_zero]
    intro o ho
    obtain ⟨j, _, rfl⟩ := List.mem_map.mp ho
    simp
  rw [hzero]

/-- Aggregated failure conclusions of a coalesced round. -/
theorem dedupeRound_failure_all (inp : RoundInput) (e : ErrVal)
    (hkeys : ∀ j ∈ inp.joinerIdentities,
      j.distinctId.canon = inp.creatorIdentity.distinctId.canon)
    (hEval : evaluateDecision (fun _ _ => inp.decideOutcome) inp.flagKey
        inp.creatorIdentity inp.variants = .error e) :
    roundJoinerOutcomes inp = inp.joinerIdentities.map (fun _ => .threw e)
    ∧ assocLookup (roundCreatorRun inp).state.pending (getKey (creatorCtx inp)) = none
    ∧ (dedupeResolve (creatorCtx inp) (roundCreatorRun inp).state).1 = .absent := by
  have hstate := roundCreatorRun_failure inp e hEval
  refine ⟨?_, ?_, ?_⟩
  · unfold roundJoinerOutcomes
    exact List.map_congr_left fun j hj => joinerOutcome_failure inp e j (hkeys j hj) hstate
  · rw [hstate]
    rfl
  · rw [hstate]
    rfl

/-!
## Claim C4
-/

/-- Claim C4: in a coalesced round of one creator and N joiners of the same
flag key and canonical distinct-id (joining while the creator's provider
call is in flight), if the provider call succeeds with decision `d` then
every joiner receives exactly that decision and the provider decide callback
is invoked exactly once in the whole round; symmetrically, if the provider
call fails with `e`, every joiner receives that same failure, the coalescer
key is removed from the pending map, and a subsequent resolve call for the
key is not joined to the failed round (it takes the creator branch,
returning absent). -/
theorem dedupe_coalesced_round_fanout (inp : RoundInput)
    (hkeys : ∀ j ∈ inp.joinerIdentities,
      j.distinctId.canon = inp.creatorIdentity.distinctId.canon) :
    (∀ d, evaluateDecision (fun _ _ => inp.decideOutcome) inp.flagKey
        inp.creatorIdentity inp.variants = .ok d →
      roundJoinerOutcomes inp = inp.joinerIdentities.map (fun _ => .found d)
      ∧ roundDecideCalls inp = 1)
    ∧ (∀ e, evaluateDecision (fun _ _ => inp.decideOutcome) inp.flagKey
        inp.creatorIdentity inp.variants = .error e →
      roundJoinerOutcomes inp = inp.joinerIdentities.map (fun _ => .threw e)
      ∧ assocLookup (roundCreatorRun inp).state.pending (getKey (creatorCtx inp)) = none
      ∧ (dedupeResolve (creatorCtx inp) (roundCreatorRun inp).state).1 = .absent) := by
  exact ⟨fun d hEval => dedupeRound_success_all inp d hkeys hEval,
    fun e hEval => dedupeRound_failure_all inp e hkeys hEval⟩

/-- Witness for C4: a concrete round with two joiners (string "42" and
number 42 ids) around a creator with numeric id 42. -/
theorem dedupe_coalesced_round_fanout_witness :
    roundJoinerOutcomes c4Input = [.found (.value true), .found (.value true)]
    ∧ roundDecideCalls c4Input = 1 := by
  have h := (dedupe_coalesced_round_fanout c4Input (by decide)).1 (.value true) rfl
  exact ⟨h.1, h.2⟩

/-!
## Claim C8
-/

/-- Claim C8: the composite key canonicalizes the distinct-id, so for any
flag key the number 42 and the string "42" yield equal keys; when identity
is absent the key is the flag key alone; and a round in which an identity
with the number 42 is in flight and an identity with the string "42" joins
coalesces into a single provider call, with the joiner receiving the
creator's decision. -/
theorem getKey_canonicalization (fk : String) :
    getKey ⟨fk, some ⟨.num 42⟩⟩ = getKey ⟨fk, some ⟨.str "42"⟩⟩
    ∧ getKey ⟨fk, none⟩ = fk
    ∧ roundDecideCalls
        { flagKey := fk, defaultValue := .bool false, variants := none,
          creatorIdentity := ⟨.num 42⟩, joinerIdentities := [⟨.str "42"⟩],
          decideOutcome := .ok (.value true) } = 1
    ∧ roundJoinerOutcomes
        { flagKey := fk, defaultValue := .bool false, variants := none,
          creatorIdentity := ⟨.num 42⟩, joinerIdentities := [⟨.str "42"⟩],
          decideOutcome := .ok (.value true) }
      = [.found (.value true)] := by
  have h42 : (DistinctId.num 42).canon = (DistinctId.str "42").canon := by decide
  have hkeys : ∀ j ∈ [(⟨.str "42"⟩ : Identity)],
      j.distinctId.canon = (⟨.num 42⟩ : Identity).distinctId.canon := by decide
  have h := dedupeRound_success_all
    { flagKey := fk, defaultValue := .bool false, variants := none,
      creatorIdentity := ⟨.num 42⟩, joinerIdentities := [⟨.str "42"⟩],
      decideOutcome := .ok (.value true) } (.value true) hkeys rfl
  refine ⟨?_, rfl, h.2, ?_⟩
  · simp [getKey, h42]
  · rw [h.1]
    rfl

end Gated
